import Mathlib

/-!
Verification development for the Aetheria render-analysis backend.

The definitions below are a shallow embedding, in Lean, of the Python
sources `backend/material_db.py`, `backend/app.py` and
`backend/ai_vision.py`.  Machine floats are modelled as exact rationals;
the perceptual colour distance (which the source obtains with `** 0.5`)
is carried in *squared* form, with the positional bias factors squared
accordingly, because the square root is strictly monotone on the
non-negative reals and every use of the distance in the source is a
strict comparison.  Fallible Python code (code that can raise) is
modelled with `Option`, `none` standing for an escaped exception.
-/

namespace Aetheria

/-- ASCII lower-casing of one character, as Python `str.lower` acts on
ASCII input (the only input exercised by this code base). -/
def asciiLower (c : Char) : Char :=
  if 'A' ≤ c ∧ c ≤ 'Z' then Char.ofNat (c.toNat + 32) else c

/-- ASCII upper-casing of one character, as Python `str.upper` on ASCII. -/
def asciiUpper (c : Char) : Char :=
  if 'a' ≤ c ∧ c ≤ 'z' then Char.ofNat (c.toNat - 32) else c

/-- Whether a character is an ASCII letter. -/
def isAsciiAlpha (c : Char) : Bool :=
  ('a' ≤ c ∧ c ≤ 'z') ∨ ('A' ≤ c ∧ c ≤ 'Z')

/-- Python whitespace characters stripped by `str.strip` (ASCII subset). -/
def isPyWs (c : Char) : Bool :=
  c = ' ' ∨ c = '\t' ∨ c = '\n' ∨ c = '\r' ∨ c = '\x0b' ∨ c = '\x0c'

/-- Python `str.strip()` on a character list. -/
def pyStrip (l : List Char) : List Char :=
  ((l.dropWhile isPyWs).reverse.dropWhile isPyWs).reverse

/-- Lower-case a whole string (Python `str.lower`, ASCII subset). -/
def lowerStr (s : String) : String :=
  ⟨s.data.map asciiLower⟩

/-- Python `str.title()` (ASCII subset): the first letter of every
maximal letter run is upper-cased, the following letters lower-cased. -/
def pyTitle (l : List Char) : List Char :=
  (l.foldl
    (fun acc c =>
      ( acc.1 ++ [if isAsciiAlpha c then
                    (if acc.2 then asciiLower c else asciiUpper c)
                  else c],
        isAsciiAlpha c))
    ([], false)).1

/-- Python `str.split` on a newline: `splitNL l` is `l` split at every
newline character, keeping empty pieces, as `"a\nb".split("\n")` does. -/
def splitNL : List Char → List (List Char)
  | [] => [[]]
  | c :: rest =>
    let r := splitNL rest
    if c = '\n' then [] :: r
    else
      match r with
      | [] => [[c]]
      | h :: t => (c :: h) :: t

/-- Whether `pat` occurs at the head of `l`. -/
def listPrefixAt : List Char → List Char → Bool
  | [], _ => true
  | x :: xs, ys =>
    match ys with
    | [] => false
    | y :: yt => x = y && listPrefixAt xs yt

/-- Whether `pat` occurs anywhere inside `l` (Python `pat in l`). -/
def subStrAt (pat : List Char) : List Char → Bool
  | [] => listPrefixAt pat []
  | c :: rest => listPrefixAt pat (c :: rest) || subStrAt pat rest

/-- The twenty-two characters accepted as digits by Python
`int(s, 16)` (ASCII hexadecimal digits, both cases). -/
def hexDigits : List Char :=
  ['0', 'a', 'A', '1', 'b', 'B', '2', 'c', 'C', '3', 'd', 'D',
   '4', 'e', 'E', '5', 'f', 'F', '6', '7', '8', '9']

/-- Whether a character is a hexadecimal digit. -/
def isHexDig (c : Char) : Bool :=
  hexDigits.contains c

/-- Numeric value of a hexadecimal digit (0 on non-digits). -/
def hexVal (c : Char) : Nat :=
  if '0' ≤ c ∧ c ≤ '9' then c.toNat - 48
  else if 'a' ≤ c ∧ c ≤ 'f' then c.toNat - 87
  else if 'A' ≤ c ∧ c ≤ 'F' then c.toNat - 55
  else 0

/-- Model of Python `int(s, 16)` on its plain-digit syntax: the string
must be a non-empty run of hexadecimal digits, otherwise a `ValueError`
escapes (`none`).  Python additionally accepts surrounding whitespace, a
sign, a `0x` prefix and digit-group underscores; no caller in this code
base produces such strings, so they are outside the modelled syntax. -/
def pyIntHex (l : List Char) : Option Nat :=
  if l = [] then none
  else if l.all isHexDig then
    some (l.foldl (fun a c => 16 * a + hexVal c) 0)
  else none

/-- Whether a character is an ASCII decimal digit. -/
def isDecDig (c : Char) : Bool :=
  '0' ≤ c ∧ c ≤ '9'

/-- Value of a run of decimal digits. -/
def decVal (l : List Char) : Nat :=
  l.foldl (fun a c => 10 * a + (c.toNat - 48)) 0

/-- Model of Python `int(s)` on a string: surrounding whitespace is
stripped, an optional sign is accepted, the rest must be a non-empty
digit run (digit-group underscores are outside the modelled syntax).
`none` is a `ValueError`. -/
def pyIntDec (l : List Char) : Option Int :=
  match pyStrip l with
  | '-' :: ds =>
    if ds ≠ [] ∧ ds.all isDecDig then some (-(decVal ds : Int)) else none
  | '+' :: ds =>
    if ds ≠ [] ∧ ds.all isDecDig then some (decVal ds : Int) else none
  | ds =>
    if ds ≠ [] ∧ ds.all isDecDig then some (decVal ds : Int) else none

/-- The hexadecimal digit character used by Python `"%02x"` formatting. -/
def hexDigitChar (n : Nat) : Char :=
  match n with
  | 0 => '0' | 1 => '1' | 2 => '2' | 3 => '3' | 4 => '4'
  | 5 => '5' | 6 => '6' | 7 => '7' | 8 => '8' | 9 => '9'
  | 10 => 'a' | 11 => 'b' | 12 => 'c' | 13 => 'd' | 14 => 'e'
  | _ => 'f'

/-- Python `f"{n:02x}"` for a byte-range value: two lower-case
hexadecimal digits, zero padded.  Every call site feeds 8-bit channel
values, for which this is exact. -/
def pyHex02 (n : Nat) : List Char :=
  [hexDigitChar (n / 16 % 16), hexDigitChar (n % 16)]

/-! ## Colour utilities (`backend/material_db.py`, `backend/app.py`) -/

/-- `hex_to_rgb` from `backend/material_db.py` (lines 9-12): strip all
leading `#`, then parse the slices `[0:2]`, `[2:4]`, `[4:6]` with
`int(-, 16)`.  `none` models the `ValueError` raised on malformed
slices; as in Python, no length check is performed beyond that. -/
def hex_to_rgb (s : String) : Option (Nat × Nat × Nat) := do
  let ds := s.data.dropWhile (· = '#')
  let r ← pyIntHex ((ds.drop 0).take 2)
  let g ← pyIntHex ((ds.drop 2).take 2)
  let b ← pyIntHex ((ds.drop 4).take 2)
  pure (r, g, b)

/-- `rgb_to_hex` from `backend/app.py` (lines 18-20):
`f"#{r:02x}{g:02x}{b:02x}"`. -/
def rgb_to_hex (rgb : Nat × Nat × Nat) : String :=
  ⟨'#' :: (pyHex02 rgb.1 ++ pyHex02 rgb.2.1 ++ pyHex02 rgb.2.2)⟩

/-- A valid six-digit hexadecimal colour string: after stripping
leading `#` characters exactly six hexadecimal digits remain. -/
def validHex6 (s : String) : Bool :=
  let ds := s.data.dropWhile (· = '#')
  ds.length = 6 && ds.all isHexDig

/-- The squared value of `color_distance` from `backend/material_db.py`
(lines 19-36), as an exact rational: the redmean-weighted sum of squared
channel differences.  The source returns the square root of this
quantity (`** 0.5`); every consumer compares distances strictly, and the
square root is strictly monotone on the non-negative reals, so carrying
the square (with squared bias factors downstream) preserves all
behaviour.  `none` models the `ValueError` escaping from `hex_to_rgb`. -/
def color_distance_sq (c1 c2 : String) : Option ℚ := do
  let rgb1 ← hex_to_rgb c1
  let rgb2 ← hex_to_rgb c2
  let rMean : ℚ := ((rgb1.1 : ℚ) + (rgb2.1 : ℚ)) / 2
  let rDiff : ℚ := (rgb1.1 : ℚ) - (rgb2.1 : ℚ)
  let gDiff : ℚ := (rgb1.2.1 : ℚ) - (rgb2.2.1 : ℚ)
  let bDiff : ℚ := (rgb1.2.2 : ℚ) - (rgb2.2.2 : ℚ)
  let wR : ℚ := 2 + rMean / 256
  let wG : ℚ := 4
  let wB : ℚ := 2 + (255 - rMean) / 256
  pure (wR * rDiff * rDiff + wG * gDiff * gDiff + wB * bDiff * bDiff)

/-- `color_distance` itself: the square root of the weighted sum, as a
real number. -/
noncomputable def color_distance (c1 c2 : String) : Option ℝ :=
  (color_distance_sq c1 c2).map (fun q => Real.sqrt (q : ℝ))

/-! ## The material knowledge base (`backend/material_db.py`, lines 39-162)

A texture record of the catalog, and the enriched records returned by
the matcher, are Python dictionaries; their possible keys are fixed, so
a record is modelled as a structure of `Option` fields (`none` = key
absent).  The texture dictionaries themselves live in `TEXTURE_STORE`,
and each category lists the store positions of its textures; this keeps
one shared copy of each record, as in the Python process, so that the
frame theorems can speak about mutation of the catalog. -/

structure MatRec where
  name : Option String
  texture_url : Option String
  suggestion : Option String
  suggestion_url : Option String
  link : Option String
  hex : Option String
  category : Option String
  x : Option Nat
  y : Option Nat
deriving Repr, DecidableEq

instance : Inhabited MatRec :=
  ⟨⟨none, none, none, none, none, none, none, none, none⟩⟩

/-- A category of `MATERIAL_DATABASE`: keyword triggers, reference
colours, and the store positions of its texture records. -/
structure MatCat where
  keywords : List String
  colors : List String
  texIdx : List Nat
deriving Repr, DecidableEq

/-- Shorthand for a catalog texture record (only the five catalog keys
are present). -/
def mkTex (n turl sug surl lnk : String) : MatRec :=
  ⟨some n, some turl, some sug, some surl, some lnk, none, none, none, none⟩

/-- The nine texture dictionaries of `MATERIAL_DATABASE`, in catalog
order (`sky_blue` owns none). -/
def TEXTURE_STORE : List MatRec :=
  [ mkTex "Blue Glass Facade"
      "https://dl.polyhaven.com/file/ph-assets/Textures/jpg/2k/glass_window/glass_window_diff_2k.jpg"
      "Reflective Glass"
      "https://dl.polyhaven.com/file/ph-assets/Textures/jpg/2k/glass_window/glass_window_diff_2k.jpg"
      "https://polyhaven.com/textures/glass",
    mkTex "Concrete Wall"
      "https://dl.polyhaven.com/file/ph-assets/Textures/jpg/2k/concrete_wall_006/concrete_wall_006_diff_2k.jpg"
      "Smooth Concrete"
      "https://dl.polyhaven.com/file/ph-assets/Textures/jpg/2k/concrete_floor_02/concrete_floor_02_diff_2k.jpg"
      "https://polyhaven.com/a/concrete_floor_02",
    mkTex "Brushed Metal"
      "https://dl.polyhaven.com/file/ph-assets/Textures/jpg/2k/metal_plate/metal_plate_diff_2k.jpg"
      "Aluminum Panel"
      "https://dl.polyhaven.com/file/ph-assets/Textures/jpg/2k/metal_plate/metal_plate_diff_2k.jpg"
      "https://polyhaven.com/a/metal_plate",
    mkTex "Wood Planks"
      "https://dl.polyhaven.com/file/ph-assets/Textures/jpg/2k/wood_floor_deck/wood_floor_deck_diff_2k.jpg"
      "Walnut Veneer"
      "https://dl.polyhaven.com/file/ph-assets/Textures/jpg/2k/walnut_veneer/walnut_veneer_diff_2k.jpg"
      "https://polyhaven.com/a/walnut_veneer",
    mkTex "Red Brick"
      "https://dl.polyhaven.com/file/ph-assets/Textures/jpg/2k/brick_wall_001/brick_wall_001_diff_2k.jpg"
      "Weathered Brick"
      "https://dl.polyhaven.com/file/ph-assets/Textures/jpg/2k/brick_wall_001/brick_wall_001_diff_2k.jpg"
      "https://polyhaven.com/a/brick_wall_001",
    mkTex "White Plaster"
      "https://dl.polyhaven.com/file/ph-assets/Textures/jpg/2k/plaster_02/plaster_02_diff_2k.jpg"
      "Rough Plaster"
      "https://dl.polyhaven.com/file/ph-assets/Textures/jpg/2k/white_rough_plaster/white_rough_plaster_diff_2k.jpg"
      "https://polyhaven.com/a/white_rough_plaster",
    mkTex "Grass Ground"
      "https://dl.polyhaven.com/file/ph-assets/Textures/jpg/2k/grass_001/grass_001_diff_2k.jpg"
      "Natural Grass"
      "https://dl.polyhaven.com/file/ph-assets/Textures/jpg/2k/grass_001/grass_001_diff_2k.jpg"
      "https://polyhaven.com/a/grass_001",
    mkTex "White Marble"
      "https://dl.polyhaven.com/file/ph-assets/Textures/jpg/2k/marble_01/marble_01_diff_2k.jpg"
      "Carrara Marble"
      "https://dl.polyhaven.com/file/ph-assets/Textures/jpg/2k/marble_01/marble_01_diff_2k.jpg"
      "https://polyhaven.com/a/marble_01",
    mkTex "Fabric Texture"
      "https://dl.polyhaven.com/file/ph-assets/Textures/jpg/2k/fabric_pattern_07/fabric_pattern_07_col_1_2k.jpg"
      "Woven Fabric"
      "https://dl.polyhaven.com/file/ph-assets/Textures/jpg/2k/fabric_pattern_05/fabric_pattern_05_col_01_2k.jpg"
      "https://polyhaven.com/a/fabric_pattern_05" ]

/-- `MATERIAL_DATABASE` (lines 39-162), an insertion-ordered dictionary
mapping category key to its data; texture lists are given as positions
in `TEXTURE_STORE`. -/
def MATERIAL_DATABASE : List (String × MatCat) :=
  [ ("glass_blue",
      ⟨["glass", "window", "facade"],
       ["#87CEEB", "#4682B4", "#5F9EA0", "#B0E0E6"], [0]⟩),
    ("concrete_gray",
      ⟨["concrete", "wall", "building"],
       ["#808080", "#A9A9A9", "#696969", "#BEBEBE"], [1]⟩),
    ("metal_gray",
      ⟨["metal", "steel", "aluminum"],
       ["#C0C0C0", "#B8B8B8", "#D3D3D3"], [2]⟩),
    ("wood_brown",
      ⟨["wood", "timber", "floor"],
       ["#8B4513", "#A0522D", "#D2691E", "#CD853F"], [3]⟩),
    ("brick_red",
      ⟨["brick", "masonry"],
       ["#B22222", "#8B0000", "#A52A2A", "#CD5C5C"], [4]⟩),
    ("plaster_white",
      ⟨["plaster", "wall", "ceiling"],
       ["#FFFFFF", "#F5F5F5", "#FFFAFA", "#F0F0F0"], [5]⟩),
    ("grass_green",
      ⟨["grass", "lawn", "vegetation"],
       ["#228B22", "#32CD32", "#00FF00", "#7CFC00"], [6]⟩),
    ("sky_blue",
      ⟨["sky", "atmosphere"],
       ["#87CEEB", "#00BFFF", "#1E90FF", "#6495ED"], []⟩),
    ("marble_white",
      ⟨["marble", "stone"],
       ["#F8F8FF", "#FFFAF0", "#FAF0E6"], [7]⟩),
    ("fabric_neutral",
      ⟨["fabric", "textile", "upholstery"],
       ["#F5F5DC", "#FAEBD7", "#FFE4C4", "#DEB887"], [8]⟩) ]

/-! ## The material matcher (`find_best_material_match`, lines 164-212)

The loop compares `distance * bias` values strictly; all those quantities
are non-negative reals, so the comparisons are preserved by squaring
and by any fixed positive rescaling.  The implementation below carries
`512 * distance²` as an integer (`color_distance_s512`) and multiplies
by `100 * bias²` (`biasNum`, values 49, 64, 100), i.e. it compares
`51200 * (biased distance)²`; the lemmas `color_distance_s512_spec`
and `biasNum_spec` certify that these are exact rescalings of the
source formulas, and `biasedOrder_spec` that the comparison order is
untouched.  Integers are used because they evaluate inside the
kernel. -/

/-- The squared positional bias factor of lines 188-194 in its direct
rational form: the source multiplies the distance by `0.7` or `0.8`,
so the squared distance is multiplied by `0.49` or `0.64`. -/
def biasFactorSq (y : ℚ) (cat : String) : ℚ :=
  if y < 3/10 ∧ (cat = "sky_blue" ∨ cat = "plaster_white") then 49/100
  else if 7/10 < y ∧
      (cat = "grass_green" ∨ cat = "wood_brown" ∨ cat = "concrete_gray") then
    49/100
  else if 3/10 ≤ y ∧ y ≤ 7/10 ∧
      (cat = "glass_blue" ∨ cat = "concrete_gray" ∨ cat = "brick_red") then
    16/25
  else 1

/-- `100 * biasFactorSq`, as an integer; the thresholds `0.3` and
`0.7` are written `mkRat` so that they evaluate inside the kernel
(`biasNum_spec` below proves this is the same function). -/
def biasNum (y : ℚ) (cat : String) : ℤ :=
  if y < mkRat 3 10 ∧ (cat = "sky_blue" ∨ cat = "plaster_white") then 49
  else if mkRat 7 10 < y ∧
      (cat = "grass_green" ∨ cat = "wood_brown" ∨ cat = "concrete_gray") then
    49
  else if mkRat 3 10 ≤ y ∧ y ≤ mkRat 7 10 ∧
      (cat = "glass_blue" ∨ cat = "concrete_gray" ∨ cat = "brick_red") then
    64
  else 100

/-- `512 * color_distance²` as an integer: multiplying the redmean
weights `2 + rMean/256`, `4`, `2 + (255 - rMean)/256` by 512 gives
`1024 + r1 + r2`, `2048` and `1534 - r1 - r2`
(`color_distance_s512_spec` below proves the rescaling). -/
def color_distance_s512 (c1 c2 : String) : Option ℤ := do
  let rgb1 ← hex_to_rgb c1
  let rgb2 ← hex_to_rgb c2
  let r1 : ℤ := rgb1.1
  let r2 : ℤ := rgb2.1
  let rDiff : ℤ := r1 - r2
  let gDiff : ℤ := (rgb1.2.1 : ℤ) - (rgb2.2.1 : ℤ)
  let bDiff : ℤ := (rgb1.2.2 : ℤ) - (rgb2.2.2 : ℤ)
  pure ((1024 + r1 + r2) * rDiff * rDiff + 2048 * gDiff * gDiff +
    (1534 - r1 - r2) * bDiff * bDiff)

/-- Loop state of `find_best_material_match`: the best biased distance
so far, carried as `51200 * (biased distance)²` (`none` is the initial
`float("inf")`), and the winning `(best_category, best_match)` pair
(`none` initially). -/
def BestSt : Type := Option ℤ × Option (String × MatCat)

/-- The strict comparison `distance < best_distance` against a possibly
infinite best. -/
def ltInf (b : ℤ) : Option ℤ → Bool
  | none => true
  | some d => b < d

/-- One iteration of the inner loop of `find_best_material_match`
(lines 185-199) for reference colour `c` of category `(cat, dat)`:
compute the distance, apply the position bias, and keep the pair if the
biased distance strictly undercuts the best so far.  `none` propagates
the `ValueError` from `color_distance`. -/
def stepPair (h : String) (y : ℚ) (cat : String) (dat : MatCat)
    (st : BestSt) (c : String) : Option BestSt :=
  (color_distance_s512 h c).map fun dsq =>
    let b := dsq * biasNum y cat
    if ltInf b st.1 then (some b, some (cat, dat)) else st

/-- The full double loop of `find_best_material_match` over categories
and their reference colours. -/
def matchLoop (h : String) (y : ℚ) : Option BestSt :=
  MATERIAL_DATABASE.foldlM
    (fun st cd => cd.2.colors.foldlM (stepPair h y cd.1 cd.2) st)
    (none, none)

/-- Replace underscores by spaces (Python `str.replace("_", " ")`). -/
def replUnderscore (l : List Char) : List Char :=
  l.map fun c => if c = '_' then ' ' else c

/-- The record built by `find_best_material_match` once the loop is
done (lines 201-212): if the winning category has textures, a copy of
its first texture record enriched with the queried colour and the
category key; otherwise the three-key fallback dictionary. -/
def mkResult (h : String) (st : Option (String × MatCat)) : MatRec :=
  match st with
  | some (cat, dat) =>
    match dat.texIdx with
    | i :: _ =>
      { (TEXTURE_STORE.getD i default) with hex := some h, category := some cat }
    | [] =>
      ⟨some ⟨pyTitle (replUnderscore cat.data)⟩, none, none, none, none,
        some h, some cat, none, none⟩
  | none =>
    ⟨some "Unknown Material", none, none, none, none,
      some h, some "unknown", none, none⟩

/-- `find_best_material_match` from `backend/material_db.py`
(lines 164-212).  `none` models the `ValueError` escaping when the
queried colour string cannot be parsed. -/
def find_best_material_match (h : String) (y : ℚ) : Option MatRec :=
  (matchLoop h y).map fun st => mkResult h st.2

/-- Sequencing of a fallible map over a list (`Option`-monad `mapM`,
written as a plain recursion so that proofs can unfold it). -/
def mapOpt {α β : Type} (f : α → Option β) : List α → Option (List β)
  | [] => some []
  | a :: t => do
    let b ← f a
    let bs ← mapOpt f t
    pure (b :: bs)

/-- All `(category, category data, reference colour)` pairs of the
catalog, in iteration order of the double loop. -/
def allPairs : List (String × MatCat × String) :=
  MATERIAL_DATABASE.flatMap fun cd => cd.2.colors.map fun c => (cd.1, cd.2, c)

/-- The biased comparison key of a candidate pair
(`51200 * (biased distance)²`), `none` on a parse failure. -/
def pairBiased (h : String) (y : ℚ) (p : String × MatCat × String) :
    Option ℤ :=
  (color_distance_s512 h p.2.2).map fun d => d * biasNum y p.1

/-- The biased comparison key as a plain integer (meaningful whenever
the queried colour parses, which makes `pairBiased` total on catalog
pairs). -/
def pairKey (h : String) (y : ℚ) (p : String × MatCat × String) : ℤ :=
  (pairBiased h y p).getD 0

/-- Left-to-right minimum with strict replacement: the first element
attaining the minimal key wins.  This is the declarative shape of the
selection loop. -/
def firstMinWith {α : Type} (key : α → ℤ) (q : α) (ps : List α) : α :=
  ps.foldl (fun best p => if key p < key best then p else best) q

/-- The selection step once parse failures are excluded. -/
def stepPure (h : String) (y : ℚ) (st : BestSt)
    (p : String × MatCat × String) : BestSt :=
  let b := pairKey h y p
  if ltInf b st.1 then (some b, some (p.1, p.2.1)) else st

/-- The exact rational biased squared distance of a candidate pair:
`(distance * bias)²` as the source computes it (meaningful whenever the
queried colour parses). -/
def pairBiasedQ (h : String) (y : ℚ) (p : String × MatCat × String) : ℚ :=
  (color_distance_sq h p.2.2).getD 0 * biasFactorSq y p.1

/-! ## `generate_texture_suggestions` (lines 214-263) -/

/-- The fixed six-slot position layout of
`generate_texture_suggestions` (lines 242-253), indexed by palette
rank. -/
def slotPos (i : Nat) : Nat × Nat :=
  if i = 0 then (30, 20)
  else if i = 1 then (50, 50)
  else if i = 2 then (30, 75)
  else if i = 3 then (70, 30)
  else if i = 4 then (70, 60)
  else (50, 80)

/-- `generate_texture_suggestions` from `backend/material_db.py`
(lines 214-263).  A palette entry is its optional `hex` value
(`none` = key absent, defaulted to `#808080` by `color_data.get`).
The `if material:` guard is always taken since the matcher always
returns a non-empty dictionary.  `none` models the `ValueError`
escaping from the matcher on a malformed palette colour. -/
def generate_texture_suggestions (palette : List (Option String)) :
    Option (List MatRec) :=
  if palette.length = 0 then some []
  else
    (palette.take 6).enum.foldlM
      (fun acc ie =>
        (find_best_material_match (ie.2.getD "#808080")
            (mkRat ((slotPos ie.1).2 : Int) 100)).map
          fun m =>
            acc ++ [{ m with x := some (slotPos ie.1).1,
                             y := some (slotPos ie.1).2 }])
      []

/-! ## The palette extractor (`quick_palette`, `backend/app.py` lines 22-56)

The decoding, resizing and median-cut quantization are performed by the
external Pillow library on arbitrary image bytes; they are modelled by
their outcome: either `none` (Pillow absent, decode failure, or any
exception inside the `try`, all of which the source sends to the same
fallback) or the quantized image's index histogram together with its
flat palette list.  Every byte buffer produces exactly one such
outcome, so quantifying over outcomes covers every input image. -/

/-- Outcome of `Image.open`/`quantize`/`histogram`/`getpalette`:
the histogram over palette indices and the flat palette list. -/
structure QuantResult where
  hist : List Nat
  palette : List Nat
deriving Repr, DecidableEq

/-- The fixed fallback palette of `quick_palette` (lines 29 and 56). -/
def FALLBACK_PALETTE : List String :=
  ["#1e293b", "#94a3b8", "#38bdf8", "#f59e0b", "#10b981"]

/-- The `idx_to_rgb` helper (lines 40-42): read three consecutive
entries of the flat palette list. -/
def idxToRgb (pal : List Nat) (idx : Nat) : Nat × Nat × Nat :=
  (pal.getD (idx * 3) 0, pal.getD (idx * 3 + 1) 0, pal.getD (idx * 3 + 2) 0)

/-- `sorted(range(len(hist)), key=lambda i: hist[i], reverse=True)`
(line 44): palette indices in stably descending histogram order. -/
def sortIdxDesc (hist : List Nat) : List Nat :=
  (List.range hist.length).mergeSort fun i j => hist.getD j 0 ≤ hist.getD i 0

/-- The dedupe-and-collect loop of `quick_palette` (lines 45-52): walk
the top indices, append each hex once, skipping exact repeats. -/
def dedupeStep (pal : List Nat) (acc : List String) (i : Nat) : List String :=
  let hx := rgb_to_hex (idxToRgb pal i)
  if hx ∈ acc then acc else acc ++ [hx]

/-- The successful branch of `quick_palette` (lines 32-53). -/
def quick_palette_core (q : QuantResult) (k : Nat) : List String :=
  let top := (sortIdxDesc q.hist).take k
  (top.foldl (dedupeStep q.palette) []).take k

/-- `quick_palette` from `backend/app.py` (lines 22-56), over the
outcome of the external image pipeline; the entries are the `hex`
values of the returned singleton dictionaries.  The slice `[:k]` is
`take k`, exact for the non-negative counts the service uses.  -/
def quick_palette (decoded : Option QuantResult) (k : Nat) : List String :=
  match decoded with
  | none => FALLBACK_PALETTE.take k
  | some q => quick_palette_core q k

/-! ## The external-description normalizer (`backend/ai_vision.py`)

`parse_ai_response` (lines 135-213) extracts a bracketed block with the
regular expression `\[[\s\S]*\]`, decodes it with `json.loads`, keeps
dictionary elements carrying a `type` key, and otherwise falls back to
line-based keyword parsing.  JSON values are modelled by `Json`;
`json_loads` is a model of `json.loads` on the integer-numeral,
plain-escape subset of JSON (fractional or exponent numerals and
`\uXXXX` escapes are outside the modelled syntax; no caller below
depends on them). -/

inductive Json where
  | null
  | bool (b : Bool)
  | num (n : Int)
  | str (s : String)
  | arr (elems : List Json)
  | obj (fields : List (String × Json))
deriving Repr, Inhabited

/-- JSON inter-token whitespace. -/
def skipWs : List Char → List Char
  | [] => []
  | c :: cs =>
    if c = ' ' ∨ c = '\t' ∨ c = '\n' ∨ c = '\r' then skipWs cs else c :: cs

/-- JSON string escape characters handled by the model. -/
def escChar (c : Char) : Option Char :=
  if c = '"' then some '"'
  else if c = '\\' then some '\\'
  else if c = '/' then some '/'
  else if c = 'n' then some '\n'
  else if c = 't' then some '\t'
  else if c = 'r' then some '\r'
  else if c = 'b' then some '\x08'
  else if c = 'f' then some '\x0c'
  else none

/-- Parse the remainder of a JSON string literal (after the opening
quote), returning its characters and the rest of the input. -/
def parseStrChars : List Char → Option (List Char × List Char)
  | [] => none
  | c :: cs =>
    if c = '"' then some ([], cs)
    else if c = '\\' then
      match cs with
      | [] => none
      | e :: cs2 => do
        let ec ← escChar e
        let p ← parseStrChars cs2
        pure (ec :: p.1, p.2)
    else do
      let p ← parseStrChars cs
      pure (c :: p.1, p.2)

/-- Split a leading run of decimal digits. -/
def spanDigits : List Char → (List Char × List Char)
  | [] => ([], [])
  | c :: cs =>
    if isDecDig c then
      let p := spanDigits cs
      (c :: p.1, p.2)
    else ([], c :: cs)

/-- Parse an integer JSON numeral. -/
def parseNumTok (l : List Char) : Option (Int × List Char) :=
  match l with
  | '-' :: rest =>
    let p := spanDigits rest
    if p.1 = [] then none else some (-(decVal p.1 : Int), p.2)
  | _ =>
    let p := spanDigits l
    if p.1 = [] then none else some ((decVal p.1 : Int), p.2)

/-- Match an exact literal continuation. -/
def dropLit : List Char → List Char → Option (List Char)
  | [], cs => some cs
  | _ :: _, [] => none
  | l :: ls, c :: cs => if c = l then dropLit ls cs else none

mutual

/-- Fuelled recursive-descent JSON value parsing. -/
def parseVal : Nat → List Char → Option (Json × List Char)
  | 0, _ => none
  | Nat.succ fuel, cs =>
    match skipWs cs with
    | [] => none
    | c :: rest =>
      if c = '\x7b' then parseObjBody fuel rest
      else if c = '[' then parseArrBody fuel rest
      else if c = '"' then
        (parseStrChars rest).map fun p => (Json.str ⟨p.1⟩, p.2)
      else if c = 't' then
        (dropLit ['r', 'u', 'e'] rest).map fun r => (Json.bool true, r)
      else if c = 'f' then
        (dropLit ['a', 'l', 's', 'e'] rest).map fun r => (Json.bool false, r)
      else if c = 'n' then
        (dropLit ['u', 'l', 'l'] rest).map fun r => (Json.null, r)
      else
        (parseNumTok (c :: rest)).map fun p => (Json.num p.1, p.2)

/-- Array body after the opening bracket. -/
def parseArrBody : Nat → List Char → Option (Json × List Char)
  | 0, _ => none
  | Nat.succ fuel, cs =>
    match skipWs cs with
    | [] => none
    | c :: rest =>
      if c = ']' then some (Json.arr [], rest)
      else do
        let p ← parseVal fuel cs
        let q ← parseArrItems fuel p.2
        pure (Json.arr (p.1 :: q.1), q.2)

/-- Comma-separated continuation of an array. -/
def parseArrItems : Nat → List Char → Option (List Json × List Char)
  | 0, _ => none
  | Nat.succ fuel, cs =>
    match skipWs cs with
    | [] => none
    | c :: rest =>
      if c = ',' then do
        let p ← parseVal fuel rest
        let q ← parseArrItems fuel p.2
        pure (p.1 :: q.1, q.2)
      else if c = ']' then some ([], rest)
      else none

/-- Object body after the opening brace. -/
def parseObjBody : Nat → List Char → Option (Json × List Char)
  | 0, _ => none
  | Nat.succ fuel, cs =>
    match skipWs cs with
    | [] => none
    | c :: rest =>
      if c = '\x7d' then some (Json.obj [], rest)
      else do
        let p ← parseMember fuel cs
        let q ← parseObjItems fuel p.2
        pure (Json.obj (p.1 :: q.1), q.2)

/-- One `"key": value` member. -/
def parseMember : Nat → List Char → Option ((String × Json) × List Char)
  | 0, _ => none
  | Nat.succ fuel, cs =>
    match skipWs cs with
    | [] => none
    | c :: rest =>
      if c = '"' then do
        let k ← parseStrChars rest
        match skipWs k.2 with
        | [] => none
        | c2 :: r2 =>
          if c2 = ':' then do
            let v ← parseVal fuel r2
            pure ((⟨k.1⟩, v.1), v.2)
          else none
      else none

/-- Comma-separated continuation of an object. -/
def parseObjItems : Nat → List Char → Option (List (String × Json) × List Char)
  | 0, _ => none
  | Nat.succ fuel, cs =>
    match skipWs cs with
    | [] => none
    | c :: rest =>
      if c = ',' then do
        let p ← parseMember fuel rest
        let q ← parseObjItems fuel p.2
        pure (p.1 :: q.1, q.2)
      else if c = '\x7d' then some ([], rest)
      else none

end

/-- Model of `json.loads`: parse one value and require only whitespace
after it.  The fuel is ample for every input the development
evaluates. -/
def json_loads (s : String) : Option Json :=
  match parseVal (2 * s.data.length + 4) s.data with
  | some (v, rest) => if skipWs rest = [] then some v else none
  | none => none

/-- Python dictionary lookup on decoded object fields (on duplicate
keys `json.loads` keeps the last, hence the reversal). -/
def objGet (fields : List (String × Json)) (k : String) : Option Json :=
  (fields.reverse.find? fun f => f.1 = k).map (·.2)

/-- Python `key in dict` on decoded object fields. -/
def hasKey (fields : List (String × Json)) (k : String) : Bool :=
  fields.any fun f => f.1 = k

/-- A normalized material entry as built by `parse_ai_response`
(lines 152-158 and the text fallback): `name` and `color` are stored
as-is (any decoded value), `type` is a lower-cased string, `x` and `y`
are coerced integers. -/
structure Material where
  name : Json
  type : String
  x : Int
  y : Int
  color : Json
deriving Repr

/-- The exceptions relevant to the normalizer: `ValueError` (caught by
the surrounding `except`) and the uncaught kind
(`TypeError`/`AttributeError`). -/
inductive PyErr where
  | valueError
  | typeError
deriving Repr, DecidableEq

/-- Model of Python `int(v)` on a decoded JSON value: numbers and
booleans convert, numeric strings parse (`ValueError` otherwise),
anything else raises `TypeError`. -/
def pyIntOfJson : Json → Except PyErr Int
  | Json.num n => .ok n
  | Json.bool b => .ok (if b then 1 else 0)
  | Json.str s =>
    match pyIntDec s.data with
    | some n => .ok n
    | none => .error .valueError
  | _ => .error .typeError

/-- Outcome of normalizing one decoded element (lines 150-158): kept,
silently skipped (not a dictionary with a `type` key), or an exception
(`valErr` is caught by the `except` clause, `typeErr` escapes — e.g.
`.lower()` on a non-string type or `int()` of a non-numeric value). -/
inductive NormRes where
  | skip
  | keep (m : Material)
  | valErr
  | typeErr
deriving Repr

/-- Normalize one element of the decoded array, as the loop body of
lines 150-158 does. -/
def normElem : Json → NormRes
  | Json.obj fields =>
    if hasKey fields "type" then
      match (objGet fields "type").getD (Json.str "unknown") with
      | Json.str ts =>
        match pyIntOfJson ((objGet fields "x").getD (Json.num 50)) with
        | .error .valueError => .valErr
        | .error .typeError => .typeErr
        | .ok xv =>
          match pyIntOfJson ((objGet fields "y").getD (Json.num 50)) with
          | .error .valueError => .valErr
          | .error .typeError => .typeErr
          | .ok yv =>
            .keep ⟨(objGet fields "name").getD (Json.str "Unknown Material"),
                   lowerStr ts, xv, yv,
                   (objGet fields "color").getD (Json.str "#808080")⟩
      | _ => .typeErr
    else .skip
  | _ => .skip

/-- Whether a decoded element is a dictionary carrying a `type` key —
the keep condition of line 151. -/
def isDictWithType : Json → Bool
  | Json.obj fields => hasKey fields "type"
  | _ => false

/-- The element kept by the structured branch, when no exception
occurs: a dictionary with a `type` key, with the documented defaults
filled in. -/
def normElemOpt (j : Json) : Option Material :=
  match normElem j with
  | .keep m => some m
  | _ => none

/-- Outcome of the structured decoding phase: finished normally with
the accumulated materials, aborted by a caught exception (decode
failure or `ValueError`) with the partially accumulated materials, or
aborted by an uncaught exception. -/
inductive NormOut where
  | ok (mats : List Material)
  | caught (mats : List Material)
  | raised
deriving Repr

/-- The normalization loop over the decoded elements, accumulating into
the function-level `materials` list. -/
def normLoop (acc : List Material) : List Json → NormOut
  | [] => .ok acc
  | m :: rest =>
    match normElem m with
    | .skip => normLoop acc rest
    | .keep mat => normLoop (acc ++ [mat]) rest
    | .valErr => .caught acc
    | .typeErr => .raised

/-- Python iteration over the decoded block: arrays yield their
elements, dictionaries their keys, strings their characters; other
values raise `TypeError` (`none`). -/
def iterElems : Json → Option (List Json)
  | Json.arr l => some l
  | Json.obj fields => some (fields.map fun f => Json.str f.1)
  | Json.str s => some (s.data.map fun c => Json.str ⟨[c]⟩)
  | _ => none

/-- Index of the last occurrence of a character. -/
def lastIdxOf (c : Char) (l : List Char) : Option Nat :=
  match l.reverse.findIdx? (· = c) with
  | some r => some (l.length - 1 - r)
  | none => none

/-- The match of `re.search(r"\[[\s\S]*\]", s)` (line 144): the
substring from the first `[` to the last `]`, provided the latter comes
after the former. -/
def extractBlock (s : String) : Option (List Char) :=
  match s.data.findIdx? (· = '['), lastIdxOf ']' s.data with
  | some i, some j =>
    if i < j then some ((s.data.drop i).take (j - i + 1)) else none
  | _, _ => none

/-- Keyword triggers of the text fallback (lines 179-199), in source
order. -/
def KW_GLASS : List String := ["glass", "window", "facade"]

/-- Concrete keyword triggers. -/
def KW_CONCRETE : List String := ["concrete", "cement"]

/-- Wood keyword triggers. -/
def KW_WOOD : List String := ["wood", "timber"]

/-- Metal keyword triggers. -/
def KW_METAL : List String := ["metal", "steel", "aluminum"]

/-- Brick keyword triggers. -/
def KW_BRICK : List String := ["brick", "masonry"]

/-- Vegetation keyword triggers. -/
def KW_GRASS : List String := ["grass", "lawn", "vegetation", "tree", "plant"]

/-- Road keyword triggers. -/
def KW_ROAD : List String := ["road", "asphalt", "pavement"]

/-- Whether any keyword occurs in the lower-cased line. -/
def anyKw (low : List Char) (kws : List String) : Bool :=
  kws.any fun k => subStrAt k.data low

/-- Whether a line of the text fallback triggers any of its keyword
branches (lines 179-202): the check is on the stripped, lower-cased
line. -/
def lineHasKeyword (l : List Char) : Bool :=
  let low := (pyStrip l).map asciiLower
  anyKw low KW_GLASS || anyKw low KW_CONCRETE || anyKw low KW_WOOD ||
    anyKw low KW_METAL || anyKw low KW_BRICK || anyKw low KW_GRASS ||
    anyKw low KW_ROAD || subStrAt ['s', 'k', 'y'] low

/-- The `current_material` dictionary of the text fallback: set `type`
and `name`, and the position/colour defaults once present. -/
structure CurMat where
  ty : String
  name : String
  pos : Option (Int × Int × String)
deriving Repr

/-- Append-time conversion of `current_material`.  Its position block
is invariantly set (the default block of lines 205-208 runs in the same
iteration that first sets the type), so the `getD` only restates the
stored values. -/
def flushCur (c : CurMat) : Material :=
  let p := c.pos.getD (50, 50, "#808080")
  ⟨Json.str c.name, c.ty, p.1, p.2.1, Json.str p.2.2⟩

/-- `line.split(":")[0] if ":" in line else dflt`. -/
def nameBefColon (line : List Char) (dflt : String) : String :=
  if subStrAt [':'] line then ⟨line.takeWhile (· ≠ ':')⟩ else dflt

/-- Overwrite `type` and `name` on `current_material`, creating it when
absent; the position block is preserved. -/
def setTyName (cur : Option CurMat) (ty nm : String) : CurMat :=
  match cur with
  | some c => { c with ty := ty, name := nm }
  | none => ⟨ty, nm, none⟩

/-- One iteration of the text-fallback line loop (lines 169-208). -/
def lineStep (st : List Material × Option CurMat) (rawLine : List Char) :
    List Material × Option CurMat :=
  let line := pyStrip rawLine
  if line = [] then
    match st.2 with
    | some cur => (st.1 ++ [flushCur cur], none)
    | none => st
  else
    let low := line.map asciiLower
    let cur1 : Option CurMat :=
      if anyKw low KW_GLASS then
        some (setTyName st.2 "glass" (nameBefColon line "Glass Element"))
      else if anyKw low KW_CONCRETE then
        some (setTyName st.2 "concrete" (nameBefColon line "Concrete Element"))
      else if anyKw low KW_WOOD then
        some (setTyName st.2 "wood" (nameBefColon line "Wood Element"))
      else if anyKw low KW_METAL then
        some (setTyName st.2 "metal" (nameBefColon line "Metal Element"))
      else if anyKw low KW_BRICK then
        some (setTyName st.2 "brick" (nameBefColon line "Brick Element"))
      else if anyKw low KW_GRASS then
        some (setTyName st.2 "grass" (nameBefColon line "Vegetation"))
      else if anyKw low KW_ROAD then
        some (setTyName st.2 "asphalt" (nameBefColon line "Road Surface"))
      else if subStrAt ['s', 'k', 'y'] low then
        some (setTyName st.2 "sky" "Sky")
      else st.2
    let cur2 : Option CurMat :=
      match cur1 with
      | some c =>
        if c.pos = none then some { c with pos := some (50, 50, "#808080") }
        else cur1
      | none => none
    (st.1, cur2)

/-- The text-based fallback parsing (lines 165-211), appending to the
materials already accumulated by the structured phase. -/
def textFallback (s : String) (mats0 : List Material) : List Material :=
  let r := (splitNL s.data).foldl lineStep (mats0, none)
  match r.2 with
  | some c => r.1 ++ [flushCur c]
  | none => r.1

/-- The `try` block of `parse_ai_response` (lines 142-163): locate and
decode the bracketed block and normalize its elements. -/
def structuredPhase (s : String) : NormOut :=
  match extractBlock s with
  | none => .ok []
  | some block =>
    match json_loads ⟨block⟩ with
    | none => .caught []
    | some v =>
      match iterElems v with
      | none => .raised
      | some elems => normLoop [] elems

/-- `parse_ai_response` from `backend/ai_vision.py` (lines 135-213): a
list of materials on normal return, `none` when an uncaught exception
escapes.  A non-empty structured result is returned outright; an empty
one, and any caught exception, falls through to the text fallback. -/
def parse_ai_response (s : String) : Option (List Material) :=
  match structuredPhase s with
  | .raised => none
  | .ok mats => if mats.isEmpty then some (textFallback s mats) else some mats
  | .caught mats => some (textFallback s mats)

/-! ## The spec-side normalizer (§4.6 of the design)

The design document describes a two-tier normalizer returning a record
`{materials, critique, score, suggestions}`, locating the structured
block between the first `{` and the last `}`.  The definition below
follows the specification text (it is the comparison point for the
refinement claims about `parse_ai_response`; it is *not* translated
from the source).  Details the specification leaves open — the
critique prefix constant, the handling of non-object decodes and of
non-numeric position fields — are filled with neutral choices; the
claims settled against this definition depend only on the parts the
specification does determine. -/

structure SpecRecord where
  materials : List Material
  critique : String
  score : Int
  suggestions : List String
deriving Repr

/-- The fixed critique prefix of the §4.6 fallback record; the
specification does not name the constant, so the neutral empty prefix
is used. -/
def SPEC_CRITIQUE_PREFIX : String := ""

/-- Element normalization as worded in §4.6: keep a dictionary with a
`type` field; `name` defaults to `"Unknown Material"`, `type` to
`"unknown"` and is lower-cased, `x`/`y` to 50, `color` to `#808080`. -/
def normElemSpec (j : Json) : Option Material :=
  match j with
  | Json.obj fields =>
    if hasKey fields "type" then
      some ⟨(objGet fields "name").getD (Json.str "Unknown Material"),
            (match (objGet fields "type").getD (Json.str "unknown") with
             | Json.str t => lowerStr t
             | _ => "unknown"),
            (match (objGet fields "x").getD (Json.num 50) with
             | Json.num n => n
             | _ => 50),
            (match (objGet fields "y").getD (Json.num 50) with
             | Json.num n => n
             | _ => 50),
            (objGet fields "color").getD (Json.str "#808080")⟩
    else none
  | _ => none

/-- The substring from the first `{` to the last `}`, as §4.6 locates
the structured block. -/
def extractBraceBlock (s : String) : Option (List Char) :=
  match s.data.findIdx? (· = '\x7b'), lastIdxOf '\x7d' s.data with
  | some i, some j =>
    if i ≤ j then some ((s.data.drop i).take (j - i + 1)) else none
  | _, _ => none

/-- The §4.6 fallback record: empty materials, prefixed first 100
characters of the payload as critique, neutral score 50, no
suggestions. -/
def specFallbackRecord (s : String) : SpecRecord :=
  ⟨[], SPEC_CRITIQUE_PREFIX ++ ⟨s.data.take 100⟩, 50, []⟩

/-- `normalizeExternalDescription` as §4.6 words it (spec-side
definition, for comparison with `parse_ai_response`). -/
def normalizeExternalDescription_spec (s : String) : SpecRecord :=
  match extractBraceBlock s with
  | none => specFallbackRecord s
  | some block =>
    match json_loads ⟨block⟩ with
    | none => specFallbackRecord s
    | some v =>
      match v with
      | Json.obj fields =>
        ⟨(match objGet fields "materials" with
          | some (Json.arr elems) => elems.filterMap normElemSpec
          | _ => []),
         (match objGet fields "critique" with
          | some (Json.str c) => c
          | _ => ""),
         (match objGet fields "score" with
          | some (Json.num n) => n
          | _ => 50),
         (match objGet fields "suggestions" with
          | some (Json.arr l) =>
            l.filterMap fun j =>
              match j with
              | Json.str t => some t
              | _ => none
          | _ => [])⟩
      | _ => ⟨[], "", 50, []⟩

/-! ## Store-passing instrumentation for the frame claims

To state that the matcher never mutates the catalog, the two catalog
consumers are repeated in store-passing form: the shared texture
dictionaries live in an explicit store (initially `TEXTURE_STORE`), a
result is a *reference* — either a store position or a request-local
record — and every Python field assignment goes through `assignRef`,
which writes into the store exactly when the assigned dictionary is a
store record.  The `.copy()` on line 202 of `material_db.py` is what
makes the result a local record; without it the enrichment writes would
land in the catalog. -/

inductive MatRef where
  | inStore (i : Nat)
  | loc (r : MatRec)
deriving Repr, DecidableEq

/-- Dereference against a store. -/
def readRef (store : List MatRec) : MatRef → MatRec
  | .inStore i => store.getD i default
  | .loc r => r

/-- A Python field assignment through a reference: updates the store
when the target dictionary is a store record, the local record
otherwise. -/
def assignRef (store : List MatRec) (r : MatRef) (f : MatRec → MatRec) :
    MatRef × List MatRec :=
  match r with
  | .inStore i => (.inStore i, store.set i (f (store.getD i default)))
  | .loc r0 => (.loc (f r0), store)

/-- Store-passing `find_best_material_match`: line 202 copies the
winning texture record out of the store before the `hex` and
`category` assignments of lines 203-204. -/
def find_best_material_match_st (store : List MatRec) (h : String)
    (y : ℚ) : Option MatRef × List MatRec :=
  match matchLoop h y with
  | none => (none, store)
  | some st =>
    match st.2 with
    | some (cat, dat) =>
      match dat.texIdx with
      | i :: _ =>
        let copy : MatRef := .loc (store.getD i default)
        let a1 := assignRef store copy fun t => { t with hex := some h }
        let a2 := assignRef a1.2 a1.1 fun t => { t with category := some cat }
        (some a2.1, a2.2)
      | [] => (some (.loc (mkResult h (some (cat, dat)))), store)
    | none => (some (.loc (mkResult h none)), store)

/-- Store-passing `generate_texture_suggestions`: the `x` and `y`
assignments of lines 259-260 go through the reference returned by the
matcher. -/
def generate_texture_suggestions_st (store : List MatRec)
    (palette : List (Option String)) :
    Option (List MatRef) × List MatRec :=
  if palette.length = 0 then (some [], store)
  else
    (palette.take 6).enum.foldl
      (fun acc ie =>
        match acc with
        | (none, st) => (none, st)
        | (some refs, st) =>
          match find_best_material_match_st st (ie.2.getD "#808080")
              (mkRat ((slotPos ie.1).2 : Int) 100) with
          | (none, st2) => (none, st2)
          | (some mref, st2) =>
            let a1 := assignRef st2 mref fun t => { t with x := some (slotPos ie.1).1 }
            let a2 := assignRef a1.2 a1.1 fun t => { t with y := some (slotPos ie.1).2 }
            (some (refs ++ [a2.1]), a2.2))
      (some [], store)

/-! # Lemmas and theorems -/

set_option maxRecDepth 10000

/-- The integer distance is the exact rescaling, by 512, of the
source-shaped rational squared distance. -/
theorem color_distance_s512_spec (a b : String) :
    color_distance_sq a b
      = (color_distance_s512 a b).map fun n => (n : ℚ) / 512 := by
  cases ha : hex_to_rgb a with
  | none => simp [color_distance_sq, color_distance_s512, ha]
  | some rgb1 =>
    cases hb : hex_to_rgb b with
    | none => simp [color_distance_sq, color_distance_s512, ha, hb]
    | some rgb2 =>
      obtain ⟨r1, g1, b1⟩ := rgb1
      obtain ⟨r2, g2, b2⟩ := rgb2
      simp only [color_distance_sq, color_distance_s512, ha, hb,
        Option.some_bind, Option.map_some, bind, pure]
      congr 1
      push_cast
      ring

/-- `biasNum` is `100 * biasFactorSq` with the same case analysis. -/
theorem biasNum_spec (y : ℚ) (cat : String) :
    (biasNum y cat : ℚ) / 100 = biasFactorSq y cat := by
  have h3 : mkRat 3 10 = (3 : ℚ) / 10 := by
    rw [Rat.mkRat_eq_div]; norm_num
  have h7 : mkRat 7 10 = (7 : ℚ) / 10 := by
    rw [Rat.mkRat_eq_div]; norm_num
  simp only [biasNum, biasFactorSq, h3, h7]
  split_ifs <;> norm_num

/-- Every reference colour of the catalog parses. -/
theorem dbColors_ok : ∀ p ∈ allPairs, (hex_to_rgb p.2.2).isSome := by decide

/-- The catalog is non-empty. -/
theorem allPairs_ne_nil : allPairs ≠ [] := by decide

/-- Every candidate pair's category key is a key of the catalog. -/
theorem allPairs_fst : ∀ p ∈ allPairs, p.1 ∈ MATERIAL_DATABASE.map Prod.fst := by
  decide

/-- A squared distance is defined whenever both colours parse. -/
theorem s512_isSome {a b : String} (ha : (hex_to_rgb a).isSome)
    (hb : (hex_to_rgb b).isSome) : (color_distance_s512 a b).isSome := by
  obtain ⟨x, hx⟩ := Option.isSome_iff_exists.mp ha
  obtain ⟨z, hz⟩ := Option.isSome_iff_exists.mp hb
  simp [color_distance_s512, hx, hz]

/-- The biased key is defined on catalog pairs whenever the queried
colour parses. -/
theorem pairBiased_isSome {h : String} (y : ℚ)
    (hp : (hex_to_rgb h).isSome) :
    ∀ p ∈ allPairs, (pairBiased h y p).isSome := by
  intro p hmem
  have := s512_isSome hp (dbColors_ok p hmem)
  simpa [pairBiased] using this

/-- Comparing integer keys is comparing the exact biased squared
distances (strict order). -/
theorem pairKey_lt_iff {h : String} {y : ℚ} {p q : String × MatCat × String}
    (hp : (pairBiased h y p).isSome) (hq : (pairBiased h y q).isSome) :
    (pairKey h y p < pairKey h y q ↔ pairBiasedQ h y p < pairBiasedQ h y q) := by
  obtain ⟨dp, hdp⟩ : ∃ d, color_distance_s512 h p.2.2 = some d := by
    cases hc : color_distance_s512 h p.2.2
    · simp [pairBiased, hc] at hp
    · exact ⟨_, rfl⟩
  obtain ⟨dq, hdq⟩ : ∃ d, color_distance_s512 h q.2.2 = some d := by
    cases hc : color_distance_s512 h q.2.2
    · simp [pairBiased, hc] at hq
    · exact ⟨_, rfl⟩
  have hcs : ∀ r d, color_distance_s512 h r = some d →
      (color_distance_sq h r).getD 0 = (d : ℚ) / 512 := by
    intro r d hd
    rw [color_distance_s512_spec, hd]
    rfl
  rw [pairKey, pairKey, pairBiased, pairBiased, hdp, hdq]
  rw [pairBiasedQ, pairBiasedQ, hcs _ _ hdp, hcs _ _ hdq,
    ← biasNum_spec, ← biasNum_spec]
  simp only [Option.map_some, Option.map_some', Option.getD_some]
  rw [div_mul_div_comm, div_mul_div_comm, div_lt_div_iff_of_pos_right]
  · constructor <;> intro hlt <;> exact_mod_cast hlt
  · norm_num

/-- Comparing integer keys is comparing the exact biased squared
distances (non-strict order). -/
theorem pairKey_le_iff {h : String} {y : ℚ} {p q : String × MatCat × String}
    (hp : (pairBiased h y p).isSome) (hq : (pairBiased h y q).isSome) :
    (pairKey h y p ≤ pairKey h y q ↔ pairBiasedQ h y p ≤ pairBiasedQ h y q) := by
  constructor <;> intro hle
  · by_contra hcon
    exact absurd ((pairKey_lt_iff hq hp).mpr (lt_of_not_le hcon)) (not_lt.mpr hle)
  · by_contra hcon
    exact absurd ((pairKey_lt_iff hq hp).mp (lt_of_not_le hcon)) (not_lt.mpr hle)

/-- A monadic fold over a flattened list is the nested fold. -/
theorem foldlM_flatMap {α β S : Type} (l : List α) (g : α → List β)
    (f : S → β → Option S) (s : S) :
    (l.flatMap g).foldlM f s = l.foldlM (fun s a => (g a).foldlM f s) s := by
  induction l generalizing s with
  | nil => rfl
  | cons a t ih =>
    rw [List.flatMap_cons, List.foldlM_append, List.foldlM_cons]
    simp only [ih]

/-- The double loop of the matcher, as a single fold over the flattened
pair list. -/
theorem matchLoop_eq_pairs (h : String) (y : ℚ) :
    matchLoop h y
      = allPairs.foldlM (fun st p => stepPair h y p.1 p.2.1 st p.2.2)
          (none, none) := by
  rw [matchLoop, allPairs, foldlM_flatMap]
  simp only [List.foldlM_map]

/-- When every pair's distance is defined, the monadic selection fold
computes the pure selection fold. -/
theorem foldlM_toPure (h : String) (y : ℚ) :
    ∀ (ps : List (String × MatCat × String)) (st : BestSt),
    (∀ p ∈ ps, (pairBiased h y p).isSome) →
    ps.foldlM (fun st p => stepPair h y p.1 p.2.1 st p.2.2) st
      = some (ps.foldl (stepPure h y) st) := by
  intro ps
  induction ps with
  | nil => intro st _; rfl
  | cons p t ih =>
    intro st hall
    have hp : (pairBiased h y p).isSome := hall p (List.mem_cons_self p t)
    obtain ⟨d, hd⟩ : ∃ d, color_distance_s512 h p.2.2 = some d := by
      cases hc : color_distance_s512 h p.2.2
      · rw [pairBiased, hc] at hp; simp at hp
      · exact ⟨_, rfl⟩
    have hstep : stepPair h y p.1 p.2.1 st p.2.2 = some (stepPure h y st p) := by
      simp [stepPair, stepPure, hd, pairKey, pairBiased]
    rw [List.foldlM_cons, hstep, List.foldl_cons]
    simpa using ih (stepPure h y st p) fun q hq => hall q (List.mem_cons_of_mem p hq)

/-- Starting from a selected pair, the pure selection fold tracks the
left-to-right strict minimum. -/
theorem foldl_state (h : String) (y : ℚ) :
    ∀ (ps : List (String × MatCat × String)) (q : String × MatCat × String),
    ps.foldl (stepPure h y) (some (pairKey h y q), some (q.1, q.2.1))
      = (some (pairKey h y (firstMinWith (pairKey h y) q ps)),
         some ((firstMinWith (pairKey h y) q ps).1,
               (firstMinWith (pairKey h y) q ps).2.1)) := by
  intro ps
  induction ps with
  | nil => intro q; rfl
  | cons p t ih =>
    intro q
    rw [List.foldl_cons]
    have hfm : firstMinWith (pairKey h y) q (p :: t)
        = firstMinWith (pairKey h y)
            (if pairKey h y p < pairKey h y q then p else q) t := by
      rw [firstMinWith, List.foldl_cons]; rfl
    rw [hfm]
    by_cases hlt : pairKey h y p < pairKey h y q
    · rw [if_pos hlt]
      have : stepPure h y (some (pairKey h y q), some (q.1, q.2.1)) p
          = (some (pairKey h y p), some (p.1, p.2.1)) := by
        simp [stepPure, ltInf, hlt]
      rw [this]; exact ih p
    · rw [if_neg hlt]
      have : stepPure h y (some (pairKey h y q), some (q.1, q.2.1)) p
          = (some (pairKey h y q), some (q.1, q.2.1)) := by
        simp [stepPure, ltInf, hlt]
      rw [this]; exact ih q

/-- The left-to-right strict minimum is the first element attaining the
minimal key: it splits the list into a strictly greater prefix, itself,
and a not-smaller remainder. -/
theorem firstMin_decomp {α : Type} (key : α → ℤ) :
    ∀ (ps : List α) (q : α),
    ∃ l1 l2, q :: ps = l1 ++ firstMinWith key q ps :: l2
      ∧ (∀ r ∈ q :: ps, key (firstMinWith key q ps) ≤ key r)
      ∧ (∀ r ∈ l1, key (firstMinWith key q ps) < key r) := by
  intro ps
  induction ps with
  | nil =>
    intro q
    refine ⟨[], [], rfl, ?_, by simp⟩
    intro r hr
    rw [List.mem_singleton] at hr
    subst hr
    exact le_refl _
  | cons p t ih =>
    intro q
    have hfm : firstMinWith key q (p :: t)
        = firstMinWith key (if key p < key q then p else q) t := by
      rw [firstMinWith, List.foldl_cons]; rfl
    by_cases hlt : key p < key q
    · obtain ⟨l1, l2, hdec, hmin, hstrict⟩ := ih p
      rw [hfm, if_pos hlt]
      refine ⟨q :: l1, l2, ?_, ?_, ?_⟩
      · rw [List.cons_append, ← hdec]
      · intro r hr
        rcases List.mem_cons.mp hr with hre | hr2
        · subst hre
          exact le_trans (hmin p (List.mem_cons_self p t)) (le_of_lt hlt)
        · exact hmin r hr2
      · intro r hr
        rcases List.mem_cons.mp hr with hre | hr2
        · subst hre
          exact lt_of_le_of_lt (hmin p (List.mem_cons_self p t)) hlt
        · exact hstrict r hr2
    · obtain ⟨l1, l2, hdec, hmin, hstrict⟩ := ih q
      rw [hfm, if_neg hlt]
      have hqle : key q ≤ key p := le_of_not_lt hlt
      cases l1 with
      | nil =>
        rw [List.nil_append, List.cons.injEq] at hdec
        obtain ⟨hqw, ht2⟩ := hdec
        refine ⟨[], p :: t, ?_, ?_, by simp⟩
        · rw [← hqw]; rfl
        · intro r hr
          rw [← hqw]
          rcases List.mem_cons.mp hr with hre | hr2
          · simp [hre]
          rcases List.mem_cons.mp hr2 with hre | hr3
          · rw [hre]; exact hqle
          · have h2 := hmin r (List.mem_cons_of_mem q hr3)
            rw [← hqw] at h2
            exact h2
      | cons a l1x =>
        rw [List.cons_append, List.cons.injEq] at hdec
        obtain ⟨hqa, ht⟩ := hdec
        have hkqa : key q = key a := by rw [hqa]
        have hwq : key (firstMinWith key q t) < key q := by
          rw [hkqa]; exact hstrict a (List.mem_cons_self a l1x)
        refine ⟨q :: p :: l1x, l2, ?_, ?_, ?_⟩
        · conv_lhs => rw [ht]
          simp [List.cons_append]
        · intro r hr
          rcases List.mem_cons.mp hr with hre | hr2
          · rw [hre]; exact le_of_lt hwq
          rcases List.mem_cons.mp hr2 with hre | hr3
          · rw [hre]; exact le_trans (le_of_lt hwq) hqle
          · exact hmin r (List.mem_cons_of_mem q hr3)
        · intro r hr
          rcases List.mem_cons.mp hr with hre | hr2
          · rw [hre]; exact hwq
          rcases List.mem_cons.mp hr2 with hre | hr3
          · rw [hre]; exact lt_of_lt_of_le hwq hqle
          · exact hstrict r (List.mem_cons_of_mem a hr3)

/-- Full characterization of `find_best_material_match` whenever the
queried colour parses: it returns the record built from the first
catalog pair attaining the minimal biased distance, the catalog
splitting into a strictly worse prefix and a not-better remainder. -/
theorem find_best_char (h : String) (y : ℚ) (hp : (hex_to_rgb h).isSome) :
    ∃ w l1 l2, allPairs = l1 ++ w :: l2
      ∧ find_best_material_match h y = some (mkResult h (some (w.1, w.2.1)))
      ∧ (∀ q ∈ allPairs, pairKey h y w ≤ pairKey h y q)
      ∧ (∀ q ∈ l1, pairKey h y w < pairKey h y q) := by
  have hps := pairBiased_isSome y hp (h := h)
  obtain ⟨p0, rest, hsplit⟩ : ∃ p0 rest, allPairs = p0 :: rest := by
    cases hap : allPairs with
    | nil => exact absurd hap allPairs_ne_nil
    | cons a l => exact ⟨a, l, rfl⟩
  have hps2 : ∀ p ∈ p0 :: rest, (pairBiased h y p).isSome := by
    rw [← hsplit]; exact hps
  have hloop : matchLoop h y
      = some ((p0 :: rest).foldl (stepPure h y) (none, none)) := by
    rw [matchLoop_eq_pairs, hsplit]
    exact foldlM_toPure h y (p0 :: rest) (none, none) hps2
  have hfirst : (p0 :: rest).foldl (stepPure h y) (none, none)
      = rest.foldl (stepPure h y)
          (some (pairKey h y p0), some (p0.1, p0.2.1)) := by
    rw [List.foldl_cons]
    have : stepPure h y (none, none) p0
        = (some (pairKey h y p0), some (p0.1, p0.2.1)) := by
      simp [stepPure, ltInf]
    rw [this]
  set w := firstMinWith (pairKey h y) p0 rest with hw
  obtain ⟨l1, l2, hdec, hmin, hstrict⟩ := firstMin_decomp (pairKey h y) rest p0
  refine ⟨w, l1, l2, ?_, ?_, ?_, ?_⟩
  · rw [hsplit, hdec, hw]
  · rw [find_best_material_match, hloop, hfirst, foldl_state]
    rfl
  · intro q hq
    exact hmin q (hsplit ▸ hq)
  · exact hstrict

/-- The record built from a selected pair always carries the selected
category key. -/
theorem mkResult_category (h cat : String) (dat : MatCat) :
    (mkResult h (some (cat, dat))).category = some cat := by
  rw [mkResult]
  cases dat.texIdx <;> rfl

/-- C1, counterexample: on the colour string `"red"`, which is not
well-formed six-digit hexadecimal, `find_best_material_match` raises a
`ValueError` out of `hex_to_rgb` (modelled `none`) instead of returning
a result — the claimed totality over all input strings fails. -/
theorem claim_C1_counterexample :
    find_best_material_match "red" (1/2 : ℚ) = none := by decide

/-- C1, amended: for every colour string that `hex_to_rgb` accepts and
every vertical position, `find_best_material_match` returns a result
whose `category` field is a key of `MATERIAL_DATABASE`. -/
theorem claim_C1 (h : String) (y : ℚ) (hp : (hex_to_rgb h).isSome) :
    ∃ m c, find_best_material_match h y = some m ∧ m.category = some c ∧
      c ∈ MATERIAL_DATABASE.map Prod.fst := by
  obtain ⟨w, l1, l2, hdec, heq, hmin, hstr⟩ := find_best_char h y hp
  refine ⟨_, w.1, heq, mkResult_category h w.1 w.2.1, ?_⟩
  exact allPairs_fst w
    (hdec ▸ List.mem_append_right l1 (List.mem_cons_self _ _))

/-- C1, witness at the colour `#87CEEB`, vertical position one half. -/
theorem claim_C1_witness :
    (hex_to_rgb "#87CEEB").isSome ∧
      ∃ m c, find_best_material_match "#87CEEB" (mkRat 1 2) = some m ∧
        m.category = some c ∧ c ∈ MATERIAL_DATABASE.map Prod.fst :=
  ⟨by decide, claim_C1 "#87CEEB" (mkRat 1 2) (by decide)⟩

/-- C2, counterexample: for the query colour `#87CEEB` at vertical
position 0.1, both `glass_blue` (unbiased) and `sky_blue` (biased
times 0.7) sit at biased distance 0, and the declaration-order
tie-break selects `glass_blue`, declared first — not `sky_blue` as the
claim asserts. -/
theorem claim_C2_counterexample :
    (find_best_material_match "#87CEEB" (1/10 : ℚ)).map (fun m => m.category)
        = some (some "glass_blue")
      ∧ "glass_blue" ≠ "sky_blue" := by
  have h110 : (1/10 : ℚ) = mkRat 1 10 := by rw [Rat.mkRat_eq_div]; norm_num
  rw [h110]
  exact ⟨by decide, by decide⟩

/-- C2, amended: for every parseable colour and every vertical
position, the returned material is built from the first catalog
`(category, reference colour)` pair attaining the minimal biased
distance — every pair declared earlier is strictly worse, every other
pair is no better, so positional bias changes the winner only by
strictly undercutting it, and exact biased ties go to catalog
declaration order; in particular `#87CEEB` at vertical position 0.1
yields `glass_blue` (declared first, tied with `sky_blue` at biased
distance 0), not `sky_blue`. -/
theorem claim_C2 :
    (∀ (h : String) (y : ℚ), (hex_to_rgb h).isSome →
      ∃ w l1 l2, allPairs = l1 ++ w :: l2
        ∧ find_best_material_match h y = some (mkResult h (some (w.1, w.2.1)))
        ∧ (∀ q ∈ allPairs, pairBiasedQ h y w ≤ pairBiasedQ h y q)
        ∧ (∀ q ∈ l1, pairBiasedQ h y w < pairBiasedQ h y q))
    ∧ (find_best_material_match "#87CEEB" (1/10 : ℚ)).map (fun m => m.category)
        = some (some "glass_blue") := by
  constructor
  · intro h y hp
    obtain ⟨w, l1, l2, hdec, heq, hmin, hstr⟩ := find_best_char h y hp
    have hsome := pairBiased_isSome y hp (h := h)
    have hwmem : w ∈ allPairs :=
      hdec ▸ List.mem_append_right l1 (List.mem_cons_self _ _)
    refine ⟨w, l1, l2, hdec, heq, ?_, ?_⟩
    · intro q hq
      exact (pairKey_le_iff (hsome w hwmem) (hsome q hq)).mp (hmin q hq)
    · intro q hq
      have hqmem : q ∈ allPairs := hdec ▸ List.mem_append_left _ hq
      exact (pairKey_lt_iff (hsome w hwmem) (hsome q hqmem)).mp (hstr q hq)
  · have h110 : (1/10 : ℚ) = mkRat 1 10 := by rw [Rat.mkRat_eq_div]; norm_num
    rw [h110]; decide

/-- C2, witness: the general selection characterization applied to the
colour `#2255AA` at vertical position one half. -/
theorem claim_C2_witness :
    (hex_to_rgb "#2255AA").isSome ∧
      ∃ w l1 l2, allPairs = l1 ++ w :: l2
        ∧ find_best_material_match "#2255AA" (mkRat 1 2)
            = some (mkResult "#2255AA" (some (w.1, w.2.1)))
        ∧ (∀ q ∈ allPairs,
            pairBiasedQ "#2255AA" (mkRat 1 2) w
              ≤ pairBiasedQ "#2255AA" (mkRat 1 2) q)
        ∧ (∀ q ∈ l1,
            pairBiasedQ "#2255AA" (mkRat 1 2) w
              < pairBiasedQ "#2255AA" (mkRat 1 2) q) :=
  ⟨by decide, claim_C2.1 "#2255AA" (mkRat 1 2) (by decide)⟩

/-! ## The round trip (claim C5) -/

/-- A hexadecimal digit has value below 16. -/
theorem hexVal_lt (c : Char) (hc : isHexDig c = true) : hexVal c < 16 := by
  have hmem : c ∈ hexDigits := by
    rw [isHexDig] at hc
    simpa using hc
  fin_cases hmem <;> decide

/-- Formatting the value of a hexadecimal digit yields its lower-cased
character. -/
theorem digitChar_hexVal (c : Char) (hc : isHexDig c = true) :
    hexDigitChar (hexVal c) = asciiLower c := by
  have hmem : c ∈ hexDigits := by
    rw [isHexDig] at hc
    simpa using hc
  fin_cases hmem <;> decide

/-- Formatting the value of a two-digit slice reproduces the two
digits, lower-cased. -/
theorem pyHex02_pair (c1 c2 : Char) (h1 : isHexDig c1 = true)
    (h2 : isHexDig c2 = true) :
    pyHex02 (16 * hexVal c1 + hexVal c2) = [asciiLower c1, asciiLower c2] := by
  have hv1 := hexVal_lt c1 h1
  have hv2 := hexVal_lt c2 h2
  have e1 : (16 * hexVal c1 + hexVal c2) / 16 % 16 = hexVal c1 := by
    rw [Nat.mul_add_div (by norm_num), Nat.div_eq_of_lt hv2, Nat.add_zero,
      Nat.mod_eq_of_lt hv1]
  have e2 : (16 * hexVal c1 + hexVal c2) % 16 = hexVal c2 := by
    rw [Nat.mul_add_mod, Nat.mod_eq_of_lt hv2]
  rw [pyHex02, e1, e2, digitChar_hexVal c1 h1, digitChar_hexVal c2 h2]

/-- Parsing a two-digit slice gives its place value. -/
theorem pyIntHex_pair (c1 c2 : Char) (h1 : isHexDig c1 = true)
    (h2 : isHexDig c2 = true) :
    pyIntHex [c1, c2] = some (16 * hexVal c1 + hexVal c2) := by
  simp [pyIntHex, h1, h2]

/-- C5, counterexample: for the valid bare six-digit string `"87CEEB"`
(no leading `#`), the round trip yields `"#87ceeb"`, which differs from
the input even after case normalization — the `#` the code prepends is
not removed by case normalization. -/
theorem claim_C5_counterexample :
    (hex_to_rgb "87CEEB").map rgb_to_hex = some "#87ceeb"
      ∧ lowerStr "#87ceeb" ≠ lowerStr "87CEEB" :=
  ⟨by decide, by decide⟩

/-- A list of length six is an explicit six-tuple. -/
theorem list_len6 {α : Type} (l : List α) (h : l.length = 6) :
    ∃ a b c d e f, l = [a, b, c, d, e, f] := by
  rcases l with _ | ⟨a, l⟩
  · simp at h
  rcases l with _ | ⟨b, l⟩
  · simp at h
  rcases l with _ | ⟨c, l⟩
  · simp at h
  rcases l with _ | ⟨d, l⟩
  · simp at h
  rcases l with _ | ⟨e, l⟩
  · simp at h
  rcases l with _ | ⟨f, l⟩
  · simp at h
  rcases l with _ | ⟨g, l⟩
  · exact ⟨a, b, c, d, e, f, rfl⟩
  · simp at h

/-- C5, amended: for every valid six-digit hexadecimal colour string
(any letter case, any number of leading `#`), the round trip
`rgb_to_hex (hex_to_rgb s)` yields `#` followed by the six digits of
`s` lower-cased; in particular, for a string written as a single `#`
followed by the six digits, the round trip is exactly the
case-normalized input. -/
theorem claim_C5 (s : String) (hv : validHex6 s = true) :
    (hex_to_rgb s).map rgb_to_hex
        = some ⟨'#' :: (s.data.dropWhile (· = '#')).map asciiLower⟩
      ∧ ∀ t, s.data = '#' :: t → t.all isHexDig = true →
          (hex_to_rgb s).map rgb_to_hex = some (lowerStr s) := by
  rw [validHex6, Bool.and_eq_true] at hv
  obtain ⟨hlen, hall⟩ := hv
  have hmain : (hex_to_rgb s).map rgb_to_hex
      = some ⟨'#' :: (s.data.dropWhile (· = '#')).map asciiLower⟩ := by
    obtain ⟨a, b, c, d, e, f, hds⟩ :=
      list_len6 (s.data.dropWhile (· = '#')) (by simpa using hlen)
    rw [hds] at hall
    simp only [List.all_cons, List.all_nil, Bool.and_eq_true,
      Bool.and_true] at hall
    obtain ⟨ha, hb, hc, hd, he, hf⟩ := hall
    have hparse : hex_to_rgb s
        = some (16 * hexVal a + hexVal b, 16 * hexVal c + hexVal d,
                16 * hexVal e + hexVal f) := by
      rw [hex_to_rgb]
      simp only [hds, List.drop, List.take, bind, Option.some_bind,
        pyIntHex_pair a b ha hb, pyIntHex_pair c d hc hd,
        pyIntHex_pair e f he hf, pure]
    rw [hparse]
    simp only [Option.map_some']
    rw [rgb_to_hex, pyHex02_pair a b ha hb, pyHex02_pair c d hc hd,
      pyHex02_pair e f he hf]
    simp [hds]
  refine ⟨hmain, ?_⟩
  intro t ht hta
  rw [hmain]
  have hnh : t.dropWhile (· = '#') = t := by
    cases t with
    | nil => rfl
    | cons c0 t0 =>
      have hc0 : isHexDig c0 = true :=
        List.all_eq_true.mp hta c0 (List.mem_cons_self _ _)
      have hne : ¬ (c0 = '#') := by
        intro hcc
        rw [hcc] at hc0
        exact absurd hc0 (by decide)
      rw [List.dropWhile_cons]
      simp [hne]
  have hds2 : s.data.dropWhile (· = '#') = t := by
    rw [ht, List.dropWhile_cons]
    simp [hnh]
  rw [hds2, lowerStr, ht]
  have hhash : asciiLower '#' = '#' := by decide
  simp [hhash]

/-- C5, witness at the input `#87CEEB`. -/
theorem claim_C5_witness :
    validHex6 "#87CEEB" = true ∧
      (hex_to_rgb "#87CEEB").map rgb_to_hex
        = some ⟨'#' :: ("#87CEEB".data.dropWhile (· = '#')).map asciiLower⟩ :=
  ⟨by decide, (claim_C5 "#87CEEB" (by decide)).1⟩

/-! ## The colour distance (claim C6) -/

/-- C6: for every valid colour the distance to itself is zero, and the
distance — the square root of the redmean-weighted sum of squared
channel differences computed by `color_distance_sq` — is symmetric in
its two arguments (symmetry holds for all strings, exceptions
included). -/
theorem claim_C6 (a b : String) :
    ((hex_to_rgb a).isSome → color_distance a a = some 0)
      ∧ color_distance a b = color_distance b a := by
  constructor
  · intro ha
    obtain ⟨rgb, hr⟩ := Option.isSome_iff_exists.mp ha
    have hsq : color_distance_sq a a = some 0 := by
      obtain ⟨r, g, bb⟩ := rgb
      simp only [color_distance_sq, hr, Option.some_bind, bind, pure]
      congr 1
      ring
    rw [color_distance, hsq]
    simp
  · have hsym : color_distance_sq a b = color_distance_sq b a := by
      cases ha : hex_to_rgb a with
      | none =>
        cases hb : hex_to_rgb b with
        | none => simp [color_distance_sq, ha, hb]
        | some y => simp [color_distance_sq, ha, hb]
      | some x =>
        cases hb : hex_to_rgb b with
        | none => simp [color_distance_sq, ha, hb]
        | some y =>
          obtain ⟨r1, g1, b1⟩ := x
          obtain ⟨r2, g2, b2⟩ := y
          simp only [color_distance_sq, ha, hb, Option.some_bind, bind, pure]
          congr 1
          ring
    rw [color_distance, color_distance, hsym]

/-- C6, witness at the colour `#808080`. -/
theorem claim_C6_witness :
    (hex_to_rgb "#808080").isSome ∧ color_distance "#808080" "#808080" = some 0 :=
  ⟨by decide, (claim_C6 "#808080" "#808080").1 (by decide)⟩

/-! ## The palette extractor (claims C7 and C8) -/

/-- The dedupe loop of `quick_palette` preserves distinctness of the
accumulated hex list. -/
theorem dedupe_nodup (pal : List Nat) :
    ∀ (l : List Nat) (acc : List String), acc.Nodup →
      (l.foldl (dedupeStep pal) acc).Nodup := by
  intro l
  induction l with
  | nil => intro acc h; exact h
  | cons i t ih =>
    intro acc h
    rw [List.foldl_cons]
    apply ih
    rw [dedupeStep]
    by_cases hmem : rgb_to_hex (idxToRgb pal i) ∈ acc
    · rw [if_pos hmem]; exact h
    · rw [if_neg hmem]
      rw [List.nodup_append]
      refine ⟨h, List.nodup_singleton _, ?_⟩
      intro a hacc hmem1
      rw [List.mem_singleton] at hmem1
      rw [hmem1] at hacc
      exact hmem hacc

/-- C7: for every outcome of the external decode/quantization step and
every requested count, the palette returned by `quick_palette` has at
most the requested length and contains no duplicate entries. -/
theorem claim_C7 (decoded : Option QuantResult) (k : Nat) :
    (quick_palette decoded k).length ≤ k ∧ (quick_palette decoded k).Nodup := by
  cases decoded with
  | none =>
    constructor
    · rw [quick_palette]
      simp [List.length_take]
    · rw [quick_palette]
      exact List.Nodup.sublist (List.take_sublist _ _) (by decide)
  | some q =>
    constructor
    · rw [quick_palette, quick_palette_core]
      simp [List.length_take]
    · rw [quick_palette, quick_palette_core]
      exact List.Nodup.sublist (List.take_sublist _ _)
        (dedupe_nodup q.palette _ [] List.nodup_nil)

/-- C8: whenever the image cannot be decoded or quantization fails (any
failing outcome of the external pipeline), `quick_palette` returns the
fixed five-colour fallback palette, independent of the input bytes, for
every requested count of at least five (the service requests six). -/
theorem claim_C8 (k : Nat) (hk : 5 ≤ k) :
    quick_palette none k
      = ["#1e293b", "#94a3b8", "#38bdf8", "#f59e0b", "#10b981"] := by
  rw [quick_palette]
  exact List.take_of_length_le (by simpa [FALLBACK_PALETTE] using hk)

/-- C8, witness at the requested count six. -/
theorem claim_C8_witness :
    5 ≤ 6 ∧ quick_palette none 6
      = ["#1e293b", "#94a3b8", "#38bdf8", "#f59e0b", "#10b981"] :=
  ⟨by decide, claim_C8 6 (by decide)⟩

/-! ## `generate_texture_suggestions` (claim C9) -/

/-- An append-accumulating monadic fold is a `mapOpt`. -/
theorem foldlM_append_mapOpt {α β γ : Type} (f : α → Option γ) (g : α → γ → β) :
    ∀ (l : List α) (acc : List β),
    l.foldlM (fun acc a => (f a).map fun c => acc ++ [g a c]) acc
      = (mapOpt (fun a => (f a).map (g a)) l).map fun bs => acc ++ bs := by
  intro l
  induction l with
  | nil => intro acc; simp [mapOpt]
  | cons a t ih =>
    intro acc
    rw [List.foldlM_cons]
    simp only [mapOpt]
    cases hfa : f a with
    | none => simp [hfa]
    | some c =>
      simp only [hfa, Option.map_some', Option.some_bind]
      show List.foldlM (fun acc a => (f a).map fun c => acc ++ [g a c])
          (acc ++ [g a c]) t = _
      rw [ih]
      cases hmt : mapOpt (fun a => (f a).map (g a)) t with
      | none => simp [hmt]
      | some bs => simp [hmt]

/-- A successful `mapOpt` preserves length. -/
theorem mapOpt_length {α β : Type} (f : α → Option β) :
    ∀ (l : List α) (ms : List β), mapOpt f l = some ms → ms.length = l.length := by
  intro l
  induction l with
  | nil =>
    intro ms h
    rw [mapOpt] at h
    cases h
    rfl
  | cons a t ih =>
    intro ms h
    rw [mapOpt] at h
    cases hfa : f a with
    | none => rw [hfa] at h; simp at h
    | some b =>
      rw [hfa] at h
      cases hmt : mapOpt f t with
      | none => rw [hmt] at h; simp at h
      | some bs =>
        rw [hmt] at h
        simp at h
        rw [← h]
        simp [ih bs hmt]

/-- The accumulation loop of `generate_texture_suggestions`, as a
`mapOpt` over the enumerated palette prefix. -/
theorem gen_fold_eq :
    ∀ (l : List (Nat × Option String)) (acc : List MatRec),
    l.foldlM (fun acc ie =>
        (find_best_material_match (ie.2.getD "#808080")
            (mkRat ((slotPos ie.1).2 : Int) 100)).map
          fun m => acc ++ [{ m with x := some (slotPos ie.1).1,
                                    y := some (slotPos ie.1).2 }]) acc
      = (mapOpt (fun ie =>
            (find_best_material_match (ie.2.getD "#808080")
                (mkRat ((slotPos ie.1).2 : Int) 100)).map
              fun m => { m with x := some (slotPos ie.1).1,
                                y := some (slotPos ie.1).2 }) l).map
          fun bs => acc ++ bs := by
  intro l
  induction l with
  | nil => intro acc; simp [mapOpt]
  | cons a t ih =>
    intro acc
    rw [List.foldlM_cons]
    simp only [mapOpt]
    cases hfa : find_best_material_match (a.2.getD "#808080")
        (mkRat ((slotPos a.1).2 : Int) 100) with
    | none => simp [hfa]
    | some m =>
      simp only [hfa, Option.map_some', Option.some_bind]
      show List.foldlM _ (acc ++ [{ m with x := some (slotPos a.1).1,
                                           y := some (slotPos a.1).2 }]) t = _
      rw [ih]
      cases hmt : mapOpt (fun ie =>
          (find_best_material_match (ie.2.getD "#808080")
              (mkRat ((slotPos ie.1).2 : Int) 100)).map
            fun m => { m with x := some (slotPos ie.1).1,
                              y := some (slotPos ie.1).2 }) t with
      | none => simp [hmt]
      | some bs => simp [hmt]

/-- C9, counterexample: on a palette entry whose `hex` value is the
malformed string `"zz"`, `generate_texture_suggestions` propagates the
`ValueError` of the matcher (modelled `none`) instead of returning a
sequence of observations. -/
theorem claim_C9_counterexample :
    generate_texture_suggestions [some "zz"] = none := by decide

/-- C9, amended: an empty palette yields the empty sequence; for every
palette, the result is the materialization, in palette-rank order, of
the first six entries, the `i`-th observation carrying the fixed
canonical position `slotPos i` and the material returned by
`find_best_material_match` at vertical position `y / 100` (the call
raising, and the whole batch with it, exactly when some consumed entry
has an unparseable colour); consequently a returned sequence has length
`min (palette length) 6`. -/
theorem claim_C9 :
    (generate_texture_suggestions [] = some [])
      ∧ (∀ palette : List (Option String),
          generate_texture_suggestions palette
            = mapOpt (fun ie =>
                (find_best_material_match (ie.2.getD "#808080")
                    (((slotPos ie.1).2 : ℚ) / 100)).map
                  fun m => { m with x := some (slotPos ie.1).1,
                                    y := some (slotPos ie.1).2 })
                (palette.take 6).enum)
      ∧ ∀ palette ms, generate_texture_suggestions palette = some ms →
          ms.length = min palette.length 6 := by
  have hmk : ∀ n : Nat, mkRat (n : Int) 100 = (n : ℚ) / 100 := by
    intro n
    rw [Rat.mkRat_eq_div]
    norm_num
  have hmapm : ∀ palette : List (Option String),
      generate_texture_suggestions palette
        = mapOpt (fun ie =>
            (find_best_material_match (ie.2.getD "#808080")
                (((slotPos ie.1).2 : ℚ) / 100)).map
              fun m => { m with x := some (slotPos ie.1).1,
                                y := some (slotPos ie.1).2 })
            (palette.take 6).enum := by
    intro palette
    rw [generate_texture_suggestions]
    by_cases hz : palette.length = 0
    · rw [if_pos hz]
      rw [List.length_eq_zero.mp hz]
      rfl
    · rw [if_neg hz]
      rw [gen_fold_eq]
      have hfun : (fun ie : Nat × Option String =>
          (find_best_material_match (ie.2.getD "#808080")
              (mkRat ((slotPos ie.1).2 : Int) 100)).map
            fun m => { m with x := some (slotPos ie.1).1,
                              y := some (slotPos ie.1).2 })
          = (fun ie : Nat × Option String =>
              (find_best_material_match (ie.2.getD "#808080")
                  (((slotPos ie.1).2 : ℚ) / 100)).map
                fun m => { m with x := some (slotPos ie.1).1,
                                  y := some (slotPos ie.1).2 }) := by
        funext ie
        rw [hmk]
      rw [hfun]
      cases hmapped : mapOpt
          (fun ie : Nat × Option String =>
            (find_best_material_match (ie.2.getD "#808080")
                (((slotPos ie.1).2 : ℚ) / 100)).map
              fun m => { m with x := some (slotPos ie.1).1,
                                y := some (slotPos ie.1).2 })
          (palette.take 6).enum with
      | none => simp [hmapped]
      | some bs => simp [hmapped]
  refine ⟨by rw [hmapm]; rfl, hmapm, ?_⟩
  intro palette ms hsome
  rw [hmapm] at hsome
  have hlen := mapOpt_length _ _ _ hsome
  rw [hlen, List.enum_length, List.length_take, Nat.min_comm]

/-- C9, witness: a one-entry palette with a parseable colour. -/
theorem claim_C9_witness :
    ∃ ms, generate_texture_suggestions [some "#87CEEB"] = some ms
      ∧ ms.length = min 1 6 := by
  have hms : generate_texture_suggestions [some "#87CEEB"]
      = some ((generate_texture_suggestions [some "#87CEEB"]).getD []) := by
    decide
  exact ⟨_, hms, by
    have := claim_C9.2.2 [some "#87CEEB"] _ hms
    simpa using this⟩

/-! ## The frame condition on the catalog (claim C10) -/

/-- The matcher never writes into the texture store: the `.copy()` on
line 202 makes every enrichment land in a request-local record. -/
theorem find_best_st_frame (store : List MatRec) (h : String) (y : ℚ) :
    (find_best_material_match_st store h y).2 = store := by
  rw [find_best_material_match_st]
  cases hml : matchLoop h y with
  | none => rfl
  | some st =>
    obtain ⟨d, w⟩ := st
    cases w with
    | none => rfl
    | some cd =>
      obtain ⟨cat, dat⟩ := cd
      obtain ⟨kw, cols, ti⟩ := dat
      cases ti with
      | nil => rfl
      | cons i t => rfl

/-- Every reference the matcher returns is request-local, never a store
position. -/
theorem find_best_st_loc (store : List MatRec) (h : String) (y : ℚ) :
    ∀ r, (find_best_material_match_st store h y).1 = some r →
      ∃ m, r = MatRef.loc m := by
  intro r hr
  rw [find_best_material_match_st] at hr
  cases hml : matchLoop h y with
  | none => rw [hml] at hr; simp at hr
  | some st =>
    rw [hml] at hr
    obtain ⟨d, w⟩ := st
    cases w with
    | none =>
      simp only [Option.some.injEq] at hr
      exact ⟨_, hr.symm⟩
    | some cd =>
      obtain ⟨cat, dat⟩ := cd
      obtain ⟨kw, cols, ti⟩ := dat
      cases ti with
      | nil =>
        simp only [Option.some.injEq] at hr
        exact ⟨_, hr.symm⟩
      | cons i t =>
        simp only [assignRef, Option.some.injEq] at hr
        exact ⟨_, hr.symm⟩

/-- The batch generator never writes into the texture store either: the
`x`/`y` assignments go through the request-local references returned by
the matcher. -/
theorem generate_st_frame (store : List MatRec)
    (palette : List (Option String)) :
    (generate_texture_suggestions_st store palette).2 = store := by
  rw [generate_texture_suggestions_st]
  by_cases hz : palette.length = 0
  · rw [if_pos hz]
  · rw [if_neg hz]
    have hinv : ∀ (l : List (Nat × Option String))
        (acc : Option (List MatRef) × List MatRec), acc.2 = store →
        (l.foldl (fun acc ie =>
          match acc with
          | (none, st) => (none, st)
          | (some refs, st) =>
            match find_best_material_match_st st (ie.2.getD "#808080")
                (mkRat ((slotPos ie.1).2 : Int) 100) with
            | (none, st2) => (none, st2)
            | (some mref, st2) =>
              let a1 := assignRef st2 mref fun t =>
                { t with x := some (slotPos ie.1).1 }
              let a2 := assignRef a1.2 a1.1 fun t =>
                { t with y := some (slotPos ie.1).2 }
              (some (refs ++ [a2.1]), a2.2)) acc).2 = store := by
      intro l
      induction l with
      | nil => intro acc h; exact h
      | cons a t ih =>
        intro acc h
        rw [List.foldl_cons]
        apply ih
        obtain ⟨accl, accst⟩ := acc
        cases accl with
        | none => exact h
        | some refs =>
          rcases hfb : find_best_material_match_st accst (a.2.getD "#808080")
              (mkRat ((slotPos a.1).2 : Int) 100) with ⟨ores, st2⟩
          have hst2 : st2 = accst := by
            have := find_best_st_frame accst (a.2.getD "#808080")
              (mkRat ((slotPos a.1).2 : Int) 100)
            rw [hfb] at this
            exact this
          cases ores with
          | none => simp only [hfb]; rw [hst2]; exact h
          | some mref =>
            obtain ⟨m, hm⟩ := find_best_st_loc accst (a.2.getD "#808080")
              (mkRat ((slotPos a.1).2 : Int) 100) mref (by rw [hfb])
            simp only [hfb, hm, assignRef]
            rw [hst2]
            exact h
    exact hinv _ _ rfl

/-- C10: the catalog's shared texture records are left unchanged by
every call of the matcher and of the batch generator, for every store
contents (in particular `TEXTURE_STORE`), every colour — parseable or
not — every vertical position, and every palette: the enrichment fields
are written to a copy of the winning texture record (or to a freshly
built record for categories with no textures), never through a store
reference. -/
theorem claim_C10 :
    (∀ (store : List MatRec) (h : String) (y : ℚ),
        (find_best_material_match_st store h y).2 = store)
      ∧ ∀ (store : List MatRec) (palette : List (Option String)),
          (generate_texture_suggestions_st store palette).2 = store :=
  ⟨find_best_st_frame, generate_st_frame⟩

/-! ## The external-description normalizer (claims C3 and C4) -/

/-- A search for a character that occurs nowhere fails. -/
theorem findIdx?_none {α : Type} (p : α → Bool) :
    ∀ (l : List α) (i : Nat), (∀ a ∈ l, p a = false) →
      List.findIdx? p l i = none := by
  intro l
  induction l with
  | nil => intro i _; rfl
  | cons a t ih =>
    intro i h
    rw [List.findIdx?]
    have ha := h a (List.mem_cons_self a t)
    rw [ha]
    simpa using ih (i + 1) fun b hb => h b (List.mem_cons_of_mem a hb)

/-- Without a `[` in the payload, no structured block is found. -/
theorem extractBlock_none (s : String) (hnb : ¬ ('[' ∈ s.data)) :
    extractBlock s = none := by
  have hfind : s.data.findIdx? (· = '[') = none := by
    apply findIdx?_none
    intro a ha
    simp only [decide_eq_false_iff_not]
    intro heq
    rw [heq] at ha
    exact hnb ha
  cases hj : lastIdxOf ']' s.data <;> simp [extractBlock, hfind]

/-- A keyword-free line leaves the text-fallback state untouched. -/
theorem foldl_lineStep_none :
    ∀ (lines : List (List Char)) (mats : List Material),
      (∀ l ∈ lines, lineHasKeyword l = false) →
      lines.foldl lineStep (mats, none) = (mats, none) := by
  intro lines
  induction lines with
  | nil => intro mats _; rfl
  | cons l t ih =>
    intro mats h
    rw [List.foldl_cons]
    have hl := h l (List.mem_cons_self l t)
    have hstep : lineStep (mats, none) l = (mats, none) := by
      rw [lineStep]
      by_cases hempty : pyStrip l = []
      · rw [if_pos hempty]
      · rw [if_neg hempty]
        rw [lineHasKeyword] at hl
        simp only [Bool.or_eq_false_iff] at hl
        obtain ⟨⟨⟨⟨⟨⟨⟨h1, h2⟩, h3⟩, h4⟩, h5⟩, h6⟩, h7⟩, h8⟩ := hl
        simp [h1, h2, h3, h4, h5, h6, h7, h8]
    rw [hstep]
    exact ih mats fun l2 hl2 => h l2 (List.mem_cons_of_mem l hl2)

/-- C3, counterexample: on the pure prose payload
`"a sheet of glass"` — no braces, no brackets — the normalizer does
not return the claimed minimal fallback record (empty materials,
prefixed critique, score 50): it has no critique or score at all, and
its keyword fallback emits a non-empty material list, while the
specified record for this payload has empty materials and score 50. -/
theorem claim_C3_counterexample :
    parse_ai_response "a sheet of glass"
        = some [⟨Json.str "Glass Element", "glass", 50, 50,
                 Json.str "#808080"⟩]
      ∧ (normalizeExternalDescription_spec "a sheet of glass").materials = []
      ∧ (normalizeExternalDescription_spec "a sheet of glass").score = 50
      ∧ parse_ai_response "a sheet of glass" ≠ some [] := by
  refine ⟨rfl, rfl, rfl, ?_⟩
  intro hcontra
  rw [show parse_ai_response "a sheet of glass"
      = some [⟨Json.str "Glass Element", "glass", 50, 50,
               Json.str "#808080"⟩] from rfl] at hcontra
  simp at hcontra

/-- C3, amended: the normalizer has no record-shaped fallback; on a
payload containing no structured block (no `[` at all) it runs the
line-based keyword fallback on the raw payload, and when no line
triggers a material keyword the result is the empty material list —
with no critique string and no score anywhere. -/
theorem claim_C3 (s : String) (hnb : ¬ ('[' ∈ s.data))
    (hkw : ∀ l ∈ splitNL s.data, lineHasKeyword l = false) :
    parse_ai_response s = some [] := by
  have hblock := extractBlock_none s hnb
  rw [parse_ai_response, structuredPhase, hblock]
  show some (textFallback s []) = some []
  rw [textFallback, foldl_lineStep_none (splitNL s.data) [] hkw]

/-- C3, witness on a two-line keyword-free prose payload. -/
theorem claim_C3_witness :
    (¬ ('[' ∈ "just an ordinary image\nmore prose here".data))
      ∧ (∀ l ∈ splitNL "just an ordinary image\nmore prose here".data,
          lineHasKeyword l = false)
      ∧ parse_ai_response "just an ordinary image\nmore prose here"
          = some [] :=
  ⟨by decide, by decide,
   claim_C3 "just an ordinary image\nmore prose here" (by decide) (by decide)⟩

/-- The structured-branch loop, on a run with no exception, keeps
exactly the dictionaries carrying a `type` key, in order, with the
defaults filled. -/
theorem normLoop_filterMap :
    ∀ (elems : List Json) (acc mats : List Material),
      normLoop acc elems = NormOut.ok mats →
      mats = acc ++ elems.filterMap normElemOpt := by
  intro elems
  induction elems with
  | nil =>
    intro acc mats h
    rw [normLoop] at h
    cases h
    simp
  | cons m rest ih =>
    intro acc mats h
    rw [normLoop] at h
    cases hne : normElem m with
    | skip =>
      rw [hne] at h
      have := ih acc mats h
      rw [this, List.filterMap_cons]
      have hopt : normElemOpt m = none := by rw [normElemOpt, hne]
      rw [hopt]
    | keep mat =>
      rw [hne] at h
      have := ih (acc ++ [mat]) mats h
      rw [this, List.filterMap_cons]
      have hopt : normElemOpt m = some mat := by rw [normElemOpt, hne]
      rw [hopt]
      simp
    | valErr => rw [hne] at h; cases h
    | typeErr => rw [hne] at h; cases h

/-- An element that is not a dictionary with a `type` key is silently
dropped. -/
theorem normElemOpt_skip (j : Json) (hj : isDictWithType j = false) :
    normElemOpt j = none := by
  cases j <;> simp [normElemOpt, normElem, isDictWithType] at hj ⊢
  rw [if_neg (by simp [hj])]

/-- C4, counterexample: the payload `Result: {"type": "glass"}` has a
decodable brace-delimited block (which under the claimed `{`-to-`}`
location yields no materials), but the code searches for `[`-to-`]`,
finds none, and instead keyword-parses the line into a glass material
named `Result` — so the block is not located at the claimed delimiters
and parsing does not stop at the structured tier. -/
theorem claim_C4_counterexample :
    parse_ai_response "Result: \x7b\"type\": \"glass\"\x7d"
        = some [⟨Json.str "Result", "glass", 50, 50, Json.str "#808080"⟩]
      ∧ json_loads ⟨(extractBraceBlock
            "Result: \x7b\"type\": \"glass\"\x7d").getD []⟩
          = some (Json.obj [("type", Json.str "glass")])
      ∧ (normalizeExternalDescription_spec
            "Result: \x7b\"type\": \"glass\"\x7d").materials = []
      ∧ parse_ai_response "Result: \x7b\"type\": \"glass\"\x7d"
          ≠ some [] := by
  refine ⟨rfl, rfl, rfl, ?_⟩
  intro hcontra
  rw [show parse_ai_response "Result: \x7b\"type\": \"glass\"\x7d"
      = some [⟨Json.str "Result", "glass", 50, 50, Json.str "#808080"⟩]
      from rfl] at hcontra
  simp at hcontra

/-- C4, amended: the structured block is located from the first `[` to
the last `]` (not `{`...`}`), and the decoded block itself is the
sequence of material entries; when the block decodes and the
normalization loop finishes without an exception with at least one kept
material, the result is exactly the dictionaries carrying a `type`
key, in order, with defaults filled (`name` `"Unknown Material"`,
`type` lower-cased defaulting to `"unknown"`, `x`/`y` 50, `color`
`#808080`); type-less or non-dictionary elements are dropped silently;
a decoded block with no kept material falls through to the text
fallback instead of stopping. -/
theorem claim_C4 :
    (∀ (s : String) (block : List Char) (v : Json) (elems : List Json)
        (mats : List Material),
      extractBlock s = some block →
      json_loads ⟨block⟩ = some v →
      iterElems v = some elems →
      normLoop [] elems = NormOut.ok mats →
      mats ≠ [] →
      parse_ai_response s = some mats ∧ mats = elems.filterMap normElemOpt)
      ∧ (∀ j, isDictWithType j = false → normElemOpt j = none)
      ∧ normElemOpt (Json.obj [("type", Json.str "Glass")])
          = some ⟨Json.str "Unknown Material", "glass", 50, 50,
                  Json.str "#808080"⟩ := by
  refine ⟨?_, normElemOpt_skip, rfl⟩
  intro s block v elems mats hb hj hi hn hne
  constructor
  · have hemp : mats.isEmpty = false := by
      cases mats with
      | nil => exact absurd rfl hne
      | cons a t => rfl
    simp only [parse_ai_response, structuredPhase, hb, hj, hi, hn, hemp]
    rfl
  · have := normLoop_filterMap elems [] mats hn
    simpa using this

/-- C4, witness: a payload embedding a decodable one-element array. -/
theorem claim_C4_witness :
    extractBlock "x [\x7b\"type\": \"Glass\"\x7d] y"
        = some "[\x7b\"type\": \"Glass\"\x7d]".data
      ∧ (parse_ai_response "x [\x7b\"type\": \"Glass\"\x7d] y"
          = some [⟨Json.str "Unknown Material", "glass", 50, 50,
                   Json.str "#808080"⟩]
        ∧ [(⟨Json.str "Unknown Material", "glass", 50, 50,
             Json.str "#808080"⟩ : Material)]
            = [Json.obj [("type", Json.str "Glass")]].filterMap normElemOpt) :=
  ⟨rfl,
   claim_C4.1 "x [\x7b\"type\": \"Glass\"\x7d] y"
     "[\x7b\"type\": \"Glass\"\x7d]".data
     (Json.arr [Json.obj [("type", Json.str "Glass")]])
     [Json.obj [("type", Json.str "Glass")]]
     [⟨Json.str "Unknown Material", "glass", 50, 50, Json.str "#808080"⟩]
     rfl rfl rfl rfl (by simp)⟩

end Aetheria
